import Mathlib

/-
Verification of the peer-review automation orchestration core.

This file gives a shallow embedding, in Lean 4, of the data model and the
operations of the repository: the review data types, the Claude client
(retry loop and JSON extraction), the review orchestrator (iteration loop,
stop conditions, report assembly) and the Topol review route (token
accounting and parallel reviewer dispatch).  LLM responses are supplied by
an explicit environment, so every run of the orchestrator is a pure
function of its inputs; gateway traffic is recorded as an explicit event
trace so that ordering and call-count properties can be stated.
-/

set_option maxHeartbeats 1000000
set_option maxRecDepth 4000
set_option linter.unreachableTactic false
set_option linter.unusedTactic false

-- ===========================================================================
-- Data model (types/index.ts)
-- ===========================================================================

/-- `ReviewRecommendation` from the types module:
`'Accept' | 'Minor Revisions' | 'Major Revisions' | 'Reject'`. -/
inductive ReviewRecommendation
  | accept
  | minorRevisions
  | majorRevisions
  | reject
deriving DecidableEq, Repr

/-- The `detailedComments` record of a peer review (all fields optional). -/
structure DetailedComments where
  abstract : Option String := none
  introduction : Option String := none
  methodology : Option String := none
  results : Option String := none
  discussion : Option String := none
  conclusion : Option String := none
  references : Option String := none
deriving DecidableEq, Repr

/-- `PeerReview` from the types module. -/
structure PeerReview where
  reviewerSpecialty : String
  recommendation : ReviewRecommendation
  confidence : Option String := none
  summary : String := ""
  strengths : List String := []
  weaknesses : List String := []
  detailedComments : DetailedComments := {}
  questionsForAuthors : List String := []
  suggestions : List String := []
  additionalNotes : Option String := none
deriving DecidableEq, Repr

/-- The synthesis `decision` tag: `'Continue' | 'Accept' | 'Reject'`. -/
inductive SynthesisDecision
  | sContinue
  | sAccept
  | sReject
deriving DecidableEq, Repr

/-- The `convergence` sub-record of a synthesis. -/
structure Convergence where
  movingTowardAcceptance : Bool := false
  shouldContinue : Bool := true
  progressSummary : String := ""
deriving DecidableEq, Repr

/-- `IterationSynthesis` from the types module. -/
structure IterationSynthesis where
  iterationNumber : Nat
  consensus : List String := []
  disagreements : List String := []
  criticalIssues : List String := []
  minorIssues : List String := []
  convergence : Convergence := {}
  simulatedRevisions : List String := []
  nextIterationFocus : List String := []
  decision : SynthesisDecision
deriving DecidableEq, Repr

/-- The editor's decision: `'Accept for Review' | 'Desk Reject'`. -/
inductive EditorDecision
  | acceptForReview
  | deskReject
deriving DecidableEq, Repr

/-- A selected reviewer: specialty label plus rationale. -/
structure SelectedReviewer where
  specialty : String
  rationale : String
deriving DecidableEq, Repr

/-- Field classification produced by the editorial assessment. -/
structure FieldClassification where
  primaryField : String
  subSpecialty : String
  keywords : List String := []
deriving DecidableEq, Repr

/-- `EditorialAssessment` from the types module. -/
structure EditorialAssessment where
  decision : EditorDecision
  rationale : String
  classification : FieldClassification
  selectedReviewers : SelectedReviewer × SelectedReviewer
  editorialGuidance : String
deriving DecidableEq, Repr

/-- `ReviewIteration` from the types module: a single round. -/
structure ReviewIteration where
  iterationNumber : Nat
  reviews : PeerReview × PeerReview
  editorialAssessment : Option EditorialAssessment := none
  synthesis : Option IterationSynthesis := none
deriving DecidableEq, Repr

/-- Per-pair trajectory entry in `TrajectoryAnalysis`. -/
structure TrajectoryStep where
  improvements : List String
  persistentIssues : List String
deriving DecidableEq, Repr

/-- `TrajectoryAnalysis` from the types module. -/
structure TrajectoryAnalysis where
  overallConvergence : String
  iteration1to2 : Option TrajectoryStep := none
  iteration2to3 : Option TrajectoryStep := none
deriving DecidableEq, Repr

/-- `ReviewReport` from the types module (the `reviewDate` is the
numeric timestamp supplied to the orchestrator). -/
structure ReviewReport where
  articleTitle : String
  targetJournal : String
  reviewDate : Nat
  totalIterations : Nat
  finalRecommendation : ReviewRecommendation
  finalRationale : String
  iterations : List ReviewIteration
  priorityRecommendations : List String
  strengthsToPreserve : List String
  criticalIssuesToAddress : List String
  suggestedNextSteps : List String
  trajectoryAnalysis : TrajectoryAnalysis
deriving DecidableEq, Repr

-- ===========================================================================
-- Report assembly: determineFinalRecommendation (orchestrator/index.ts)
-- ===========================================================================

/-- The `scoreMap` of `determineFinalRecommendation`:
Accept = 4, Minor Revisions = 3, Major Revisions = 2, Reject = 1. -/
def scoreMap : ReviewRecommendation → ℚ
  | .accept => 4
  | .minorRevisions => 3
  | .majorRevisions => 2
  | .reject => 1

/-- `determineFinalRecommendation` from `src/lib/orchestrator/index.ts`:
average the two ordinal scores of the last round's reviews, then bucket
at 3.5 / 2.5 / 1.5. -/
def determineFinalRecommendation (review1 review2 : PeerReview) :
    ReviewRecommendation :=
  let avgScore : ℚ :=
    (scoreMap review1.recommendation + scoreMap review2.recommendation) / 2
  if avgScore ≥ 3.5 then .accept
  else if avgScore ≥ 2.5 then .minorRevisions
  else if avgScore ≥ 1.5 then .majorRevisions
  else .reject

/-- The spec's own description of final-recommendation bucketing (§4.5),
stated independently of the implementation for comparison: map to ordinals
Reject=1, Major=2, Minor=3, Accept=4, average, then bucket. -/
def specOrdinal : ReviewRecommendation → ℚ
  | .reject => 1
  | .majorRevisions => 2
  | .minorRevisions => 3
  | .accept => 4

/-- Spec-side bucketing of an average score (§4.5). -/
def specBucket (avg : ℚ) : ReviewRecommendation :=
  if avg ≥ 3.5 then .accept
  else if avg ≥ 2.5 then .minorRevisions
  else if avg ≥ 1.5 then .majorRevisions
  else .reject

/-- C4: for every pair of final-round reviewer recommendations, the final
recommendation equals the bucketed average of their ordinal scores
(Reject=1, Major=2, Minor=3, Accept=4; thresholds 3.5/2.5/1.5), and in
particular (Accept, Accept) → Accept, (Accept, Minor) → Accept,
(Minor, Major) → Minor Revisions, (Reject, Reject) → Reject. -/
theorem determineFinalRecommendation_matches_spec_bucketing :
    (∀ r1 r2 : PeerReview,
      determineFinalRecommendation r1 r2 =
        specBucket ((specOrdinal r1.recommendation +
          specOrdinal r2.recommendation) / 2))
    ∧ (∀ r1 r2 : PeerReview,
        (r1.recommendation = .accept ∧ r2.recommendation = .accept →
          determineFinalRecommendation r1 r2 = .accept)
        ∧ (r1.recommendation = .accept ∧
            r2.recommendation = .minorRevisions →
          determineFinalRecommendation r1 r2 = .accept)
        ∧ (r1.recommendation = .minorRevisions ∧
            r2.recommendation = .majorRevisions →
          determineFinalRecommendation r1 r2 = .minorRevisions)
        ∧ (r1.recommendation = .reject ∧ r2.recommendation = .reject →
          determineFinalRecommendation r1 r2 = .reject)) := by
  constructor
  · intro r1 r2
    cases h1 : r1.recommendation <;> cases h2 : r2.recommendation <;>
      simp only [determineFinalRecommendation, specBucket, scoreMap,
        specOrdinal, h1, h2] <;> norm_num
  · intro r1 r2
    refine ⟨?_, ?_, ?_, ?_⟩ <;> rintro ⟨h1, h2⟩ <;>
      simp only [determineFinalRecommendation, scoreMap, h1, h2] <;>
      norm_num

-- ===========================================================================
-- Claude client (src/lib/claude/client.ts): constants, truncation, retry loop
-- ===========================================================================

/-- `MAX_ARTICLE_LENGTH` from the client: articles longer than this are
truncated before being placed in a prompt. -/
def MAX_ARTICLE_LENGTH : Nat := 15000

/-- `API_CALL_DELAY` from the client: base delay (ms) between API calls. -/
def API_CALL_DELAY : Nat := 1500

/-- The client's fixed `maxRetries` for the retry loop in `callClaude`. -/
def maxRetries : Nat := 3

/-- `truncateArticle` from the client: keep the first
`MAX_ARTICLE_LENGTH` characters and append an explicit truncation
marker when the text is longer than the limit. -/
def truncateArticle (text : String) : String :=
  if text.length ≤ MAX_ARTICLE_LENGTH then text
  else String.mk (text.data.take MAX_ARTICLE_LENGTH) ++
    "\n\n[Article truncated due to length...]"

/-- The observable shape of an error thrown by the Anthropic SDK, as far
as `callClaude`'s catch block inspects it: an optional HTTP status, an
optional `error.type` tag, and a message. -/
structure ApiError where
  status : Option Nat := none
  errType : Option String := none
  message : String := ""
deriving DecidableEq, Repr

/-- The outcome of one dispatched API attempt, supplied by the
environment: either a response text with reported token usage, or a
thrown error. -/
inductive AttemptOutcome
  | success (text : String) (inputTokens outputTokens : Nat)
  | failure (e : ApiError)
deriving DecidableEq, Repr

/-- The rate-limit test from `callClaude`'s catch block:
`error?.status === 429 || error?.error?.type === 'rate_limit_error'`. -/
def isRateLimitError (e : ApiError) : Bool :=
  e.status = some 429 || e.errType = some "rate_limit_error"

/-- Result of one `callClaude` invocation: the returned text or thrown
error, the sleep delays performed (in order), and the number of API
dispatches actually made. -/
structure CallResult where
  result : Except String String
  delays : List Nat
  attempts : Nat
deriving Repr

/-- The body of `callClaude`'s `while (retryCount <= maxRetries)` loop
(client.ts lines 90-138).  `out k` is the outcome of the k-th dispatched
attempt.  Before the first attempt the client sleeps `API_CALL_DELAY`;
before retry k it sleeps `API_CALL_DELAY * 2^k` (exponential backoff).
Only rate-limit errors with `retryCount + 1 ≤ maxRetries` loop again;
every other error is rethrown as `Claude API call failed: ...`.  The
fuel argument equals `maxRetries + 1 - retryCount`, so fuel 0 is the
loop-exit line `throw new Error('Max retries exceeded...')`. -/
def callClaudeGo (out : Nat → AttemptOutcome) :
    Nat → Nat → CallResult
  | _, 0 => ⟨.error "Max retries exceeded for Claude API call", [], 0⟩
  | retryCount, fuel + 1 =>
    let d := if retryCount > 0 then API_CALL_DELAY * 2 ^ retryCount
      else API_CALL_DELAY
    match out retryCount with
    | .success text _ _ => ⟨.ok text, [d], 1⟩
    | .failure e =>
      if isRateLimitError e ∧ retryCount + 1 ≤ maxRetries then
        let r := callClaudeGo out (retryCount + 1) fuel
        ⟨r.result, d :: r.delays, r.attempts + 1⟩
      else ⟨.error ("Claude API call failed: " ++ e.message), [d], 1⟩

/-- `callClaude` from `src/lib/claude/client.ts`: run the retry loop
with `retryCount = 0`. -/
def callClaude (out : Nat → AttemptOutcome) : CallResult :=
  callClaudeGo out 0 (maxRetries + 1)

/-- C6 (amended): `callClaude` retries only rate-limit failures
(HTTP 429 or `rate_limit_error`), sleeping exponentially increasing
delays `API_CALL_DELAY * 2^k`; after `maxRetries` retries the failure
is propagated to the caller, and a success on a retry completes the
call normally. -/
theorem callClaude_retries_rate_limit_with_backoff
    (out : Nat → AttemptOutcome)
    (e0 e1 e2 e3 : ApiError)
    (h0 : out 0 = .failure e0) (h1 : out 1 = .failure e1)
    (h2 : out 2 = .failure e2) (h3 : out 3 = .failure e3)
    (r0 : isRateLimitError e0 = true) (r1 : isRateLimitError e1 = true)
    (r2 : isRateLimitError e2 = true) (r3 : isRateLimitError e3 = true) :
    callClaude out =
      ⟨.error ("Claude API call failed: " ++ e3.message),
        [API_CALL_DELAY, API_CALL_DELAY * 2, API_CALL_DELAY * 4,
          API_CALL_DELAY * 8], 4⟩
    ∧ ((callClaude out).delays.Chain' (· < ·)) := by
  have hrun : callClaude out =
      ⟨.error ("Claude API call failed: " ++ e3.message),
        [API_CALL_DELAY, API_CALL_DELAY * 2, API_CALL_DELAY * 4,
          API_CALL_DELAY * 8], 4⟩ := by
    simp only [callClaude, callClaudeGo, h0, h1, h2, h3]
    norm_num [r0, r1, r2, r3, maxRetries, API_CALL_DELAY]
  refine ⟨hrun, ?_⟩
  rw [hrun]
  norm_num [API_CALL_DELAY]

/-- Witness for `callClaude_retries_rate_limit_with_backoff` at a
concrete all-rate-limited outcome stream. -/
theorem callClaude_retries_rate_limit_with_backoff_witness :
    callClaude (fun _ => .failure ⟨some 429, none, "rate limited"⟩) =
      ⟨.error ("Claude API call failed: " ++ "rate limited"),
        [API_CALL_DELAY, API_CALL_DELAY * 2, API_CALL_DELAY * 4,
          API_CALL_DELAY * 8], 4⟩
    ∧ ((callClaude
        (fun _ => .failure ⟨some 429, none, "rate limited"⟩)).delays.Chain'
          (· < ·)) :=
  callClaude_retries_rate_limit_with_backoff
    (fun _ => .failure ⟨some 429, none, "rate limited"⟩)
    ⟨some 429, none, "rate limited"⟩ ⟨some 429, none, "rate limited"⟩
    ⟨some 429, none, "rate limited"⟩ ⟨some 429, none, "rate limited"⟩
    rfl rfl rfl rfl (by decide) (by decide) (by decide) (by decide)

/-- C6 (counterexample): a transient network failure — an error with no
HTTP status and no `rate_limit_error` tag — is NOT retried: `callClaude`
dispatches exactly one attempt and propagates the failure immediately,
contradicting the claim that transient network failures are retried up
to the retry limit. -/
theorem callClaude_network_failure_not_retried :
    callClaude (fun _ => .failure ⟨none, none, "socket hang up"⟩) =
      ⟨.error "Claude API call failed: socket hang up",
        [API_CALL_DELAY], 1⟩ := by
  simp [callClaude, callClaudeGo, isRateLimitError]

-- ===========================================================================
-- Response parsing: parseClaudeJSON (src/lib/claude/client.ts lines 153-178)
-- ===========================================================================

/-- JSON values as produced by `JSON.parse`.  Numbers are kept exactly as
mantissa × 10^exp10, e.g. `12.5` is `num 125 (-1)`. -/
inductive Json
  | null
  | bool (b : Bool)
  | num (mantissa : Int) (exp10 : Int)
  | str (s : String)
  | arr (elems : List Json)
  | obj (fields : List (String × Json))

/-- JSON insignificant whitespace: space, tab, line feed, carriage return. -/
def isJsonWs (c : Char) : Bool :=
  c = ' ' || c = '\t' || c = '\n' || c = '\r'

/-- Skip JSON whitespace. -/
def skipWs (cs : List Char) : List Char :=
  cs.dropWhile isJsonWs

/-- Whitespace as matched by `\s` in the client's regexes and by
`String.prototype.trim` (the ASCII part). -/
def isRegexWs (c : Char) : Bool :=
  c = ' ' || c = '\t' || c = '\n' || c = '\r' || c = '\x0b' || c = '\x0c'

/-- Trim regex whitespace from both ends of a character list (the net
effect of the `\s*(...)\s*` capture in the client's fence regexes). -/
def trimChars (cs : List Char) : List Char :=
  ((cs.dropWhile isRegexWs).reverse.dropWhile isRegexWs).reverse

/-- Is the first character of the list `c`? -/
def headIs (c : Char) : List Char → Bool
  | x :: _ => x = c
  | [] => false

/-- Strip an expected literal sequence from the front of the input. -/
def stripPre : List Char → List Char → Option (List Char)
  | [], cs => some cs
  | p :: ps, c :: cs => if c = p then stripPre ps cs else none
  | _ :: _, [] => none

/-- Value of a hexadecimal digit. -/
def hexVal (c : Char) : Option Nat :=
  if c.isDigit then some (c.toNat - 48)
  else if 'a' ≤ c ∧ c ≤ 'f' then some (c.toNat - 87)
  else if 'A' ≤ c ∧ c ≤ 'F' then some (c.toNat - 55)
  else none

/-- Scan a JSON string body (the part after the opening quote), handling
the escape sequences `JSON.parse` accepts; returns the decoded content
and the remainder after the closing quote. -/
def parseStringBody : List Char → Option (List Char × List Char)
  | [] => none
  | '"' :: rest => some ([], rest)
  | '\\' :: '"' :: rest =>
    (parseStringBody rest).map (fun p => ('"' :: p.1, p.2))
  | '\\' :: '\\' :: rest =>
    (parseStringBody rest).map (fun p => ('\\' :: p.1, p.2))
  | '\\' :: '/' :: rest =>
    (parseStringBody rest).map (fun p => ('/' :: p.1, p.2))
  | '\\' :: 'b' :: rest =>
    (parseStringBody rest).map (fun p => ('\x08' :: p.1, p.2))
  | '\\' :: 'f' :: rest =>
    (parseStringBody rest).map (fun p => ('\x0c' :: p.1, p.2))
  | '\\' :: 'n' :: rest =>
    (parseStringBody rest).map (fun p => ('\n' :: p.1, p.2))
  | '\\' :: 'r' :: rest =>
    (parseStringBody rest).map (fun p => ('\r' :: p.1, p.2))
  | '\\' :: 't' :: rest =>
    (parseStringBody rest).map (fun p => ('\t' :: p.1, p.2))
  | '\\' :: 'u' :: h1 :: h2 :: h3 :: h4 :: rest =>
    (match hexVal h1, hexVal h2, hexVal h3, hexVal h4 with
     | some a, some b, some c, some d =>
       (parseStringBody rest).map
         (fun p => (Char.ofNat (((a * 16 + b) * 16 + c) * 16 + d) :: p.1, p.2))
     | _, _, _, _ => none)
  | '\\' :: _ => none
  | c :: rest =>
    if c.toNat < 32 then none
    else (parseStringBody rest).map (fun p => (c :: p.1, p.2))

/-- Numeric value of a digit string. -/
def digitsVal (ds : List Char) : Nat :=
  ds.foldl (fun a c => a * 10 + (c.toNat - 48)) 0

/-- Build a `Json.num` from sign, integer digits, fraction digits and a
signed exponent digit string. -/
def mkNum (neg : Bool) (intDs fracDs : List Char) (esign : Bool)
    (eds : List Char) : Json :=
  let m : Nat := digitsVal (intDs ++ fracDs)
  let mz : Int := if neg then -(m : Int) else (m : Int)
  let e : Int :=
    (if esign then -(digitsVal eds : Int) else (digitsVal eds : Int)) -
      (fracDs.length : Int)
  .num mz e

/-- Parse the optional exponent part of a JSON number. -/
def parseNumExpPart (neg : Bool) (intDs fracDs rest2 : List Char) :
    Option (Json × List Char) :=
  if headIs 'e' rest2 || headIs 'E' rest2 then
    let r3 := rest2.tail
    let (esign, r4) : Bool × List Char :=
      if headIs '+' r3 then (false, r3.tail)
      else if headIs '-' r3 then (true, r3.tail)
      else (false, r3)
    let eds := r4.takeWhile Char.isDigit
    if eds.isEmpty then none
    else some (mkNum neg intDs fracDs esign eds, r4.dropWhile Char.isDigit)
  else some (mkNum neg intDs fracDs false [], rest2)

/-- Parse the optional fraction part of a JSON number. -/
def parseNumFracPart (neg : Bool) (intDs rest1 : List Char) :
    Option (Json × List Char) :=
  if headIs '.' rest1 then
    let r2 := rest1.tail
    let ds := r2.takeWhile Char.isDigit
    if ds.isEmpty then none
    else parseNumExpPart neg intDs ds (r2.dropWhile Char.isDigit)
  else parseNumExpPart neg intDs [] rest1

/-- Parse a JSON number per the `JSON.parse` grammar: optional minus,
then `0` or a nonzero-led digit run, optional fraction, optional
exponent. -/
def parseNumber (cs : List Char) : Option (Json × List Char) :=
  let (neg, cs1) : Bool × List Char :=
    if headIs '-' cs then (true, cs.tail) else (false, cs)
  match cs1 with
  | [] => none
  | c :: r =>
    if c = '0' then parseNumFracPart neg ['0'] r
    else if c.isDigit then
      parseNumFracPart neg (c :: r.takeWhile Char.isDigit)
        (r.dropWhile Char.isDigit)
    else none

mutual

/-- Parse one JSON value (fuel-indexed recursive descent mirroring what
`JSON.parse` accepts), returning the value and the unconsumed rest. -/
def parseValue : Nat → List Char → Option (Json × List Char)
  | 0, _ => none
  | fuel + 1, cs =>
    match skipWs cs with
    | [] => none
    | c :: rest =>
      if c = '\x7b' then
        (if headIs '\x7d' (skipWs rest) then
          some (.obj [], (skipWs rest).tail)
        else parseMembers fuel rest [])
      else if c = '[' then
        (if headIs ']' (skipWs rest) then
          some (.arr [], (skipWs rest).tail)
        else parseElems fuel rest [])
      else if c = '"' then
        (parseStringBody rest).map (fun p => (.str (String.mk p.1), p.2))
      else if c = 't' then
        (match stripPre ['r', 'u', 'e'] rest with
         | some r => some (.bool true, r)
         | none => none)
      else if c = 'f' then
        (match stripPre ['a', 'l', 's', 'e'] rest with
         | some r => some (.bool false, r)
         | none => none)
      else if c = 'n' then
        (match stripPre ['u', 'l', 'l'] rest with
         | some r => some (.null, r)
         | none => none)
      else parseNumber (c :: rest)

/-- Parse the comma-separated elements of a JSON array (positioned after
the opening bracket of a non-empty array). -/
def parseElems : Nat → List Char → List Json → Option (Json × List Char)
  | 0, _, _ => none
  | fuel + 1, cs, acc =>
    match parseValue fuel cs with
    | some (v, rest) =>
      let r := skipWs rest
      if headIs ',' r then parseElems fuel r.tail (acc ++ [v])
      else if headIs ']' r then some (.arr (acc ++ [v]), r.tail)
      else none
    | none => none

/-- Parse the members of a JSON object (positioned after the opening
brace of a non-empty object). -/
def parseMembers : Nat → List Char → List (String × Json) →
    Option (Json × List Char)
  | 0, _, _ => none
  | fuel + 1, cs, acc =>
    let cs1 := skipWs cs
    if headIs '"' cs1 then
      match parseStringBody cs1.tail with
      | some (key, rest1) =>
        if headIs ':' (skipWs rest1) then
          match parseValue fuel (skipWs rest1).tail with
          | some (v, rest3) =>
            let r := skipWs rest3
            if headIs ',' r then
              parseMembers fuel r.tail (acc ++ [(String.mk key, v)])
            else if headIs '\x7d' r then
              some (.obj (acc ++ [(String.mk key, v)]), r.tail)
            else none
          | none => none
        else none
      | none => none
    else none

end

/-- `JSON.parse` on a character list: parse one value and require that
only whitespace follows (otherwise `JSON.parse` throws). -/
def jsonParseL (cs : List Char) : Option Json :=
  match parseValue (cs.length + 2) cs with
  | some (v, rest) => if (skipWs rest).isEmpty then some v else none
  | none => none

/-- Does `pat` occur at the head of `cs`? -/
def startsWithPat : List Char → List Char → Bool
  | [], _ => true
  | _ :: _, [] => false
  | p :: ps, c :: cs => p = c && startsWithPat ps cs

/-- Split `cs` at the first occurrence of `pat`: returns the part before
the occurrence and the part after it. -/
def splitFirstSub (pat : List Char) : List Char → Option (List Char × List Char)
  | [] =>
    if startsWithPat pat [] then some ([], []) else none
  | c :: rest =>
    if startsWithPat pat (c :: rest) then
      some ([], (c :: rest).drop pat.length)
    else (splitFirstSub pat rest).map (fun p => (c :: p.1, p.2))

/-- The effect of matching ``` ```tag\s*([\s\S]*?)\s*``` ``` against the
text: the trimmed content between the first ``` ```tag ``` marker and
the next ``` ``` ``` marker, if both exist. -/
def fencedWith (tag : List Char) (cs : List Char) : Option (List Char) :=
  match splitFirstSub (['\x60', '\x60', '\x60'] ++ tag) cs with
  | some (_, rest) =>
    match splitFirstSub ['\x60', '\x60', '\x60'] rest with
    | some (content, _) => some (trimChars content)
    | none => none
  | none => none

/-- The fenced-block strategy of `parseClaudeJSON`: try the
```` ```json ```` regex first, then the generic ```` ``` ```` regex. -/
def findFencedBlock (cs : List Char) : Option (List Char) :=
  match fencedWith ['j', 's', 'o', 'n'] cs with
  | some content => some content
  | none => fencedWith [] cs

/-- Index of the first occurrence of a character (`String.indexOf`). -/
def idxOfChar (c : Char) : List Char → Option Nat
  | [] => none
  | x :: rest =>
    if x = c then some 0 else (idxOfChar c rest).map (· + 1)

/-- Index of the last occurrence of a character (`String.lastIndexOf`). -/
def lastIdxOfChar (c : Char) (cs : List Char) : Option Nat :=
  (idxOfChar c cs.reverse).map (fun k => cs.length - 1 - k)

/-- `String.prototype.substring`: swaps its arguments when start exceeds
end. -/
def jsSubstring (cs : List Char) (a b : Nat) : List Char :=
  (cs.take (max a b)).drop (min a b)

/-- The brace-pair strategy of `parseClaudeJSON`: the substring from the
first `\x7b` to the last `\x7d` (inclusive), when both exist. -/
def bracesSubstring (cs : List Char) : Option (List Char) :=
  match idxOfChar '\x7b' cs, lastIdxOfChar '\x7d' cs with
  | some jsonStart, some jsonEnd =>
    some (jsSubstring cs jsonStart (jsonEnd + 1))
  | _, _ => none

/-- `parseClaudeJSON` from `src/lib/claude/client.ts`: try `JSON.parse`
on the whole text; on failure look for a fenced code block and parse its
contents; failing that, parse the substring between the first `\x7b` and
the last `\x7d`.  Only the initial whole-text `JSON.parse` sits inside the
`try`: a `JSON.parse` failure inside strategy (b) or (c) propagates as an
uncaught `SyntaxError`, and the explicit `Could not extract valid JSON`
error is thrown only when neither a fence nor a brace pair is found. -/
def parseClaudeJSON (cs : List Char) : Except String Json :=
  match jsonParseL cs with
  | some v => .ok v
  | none =>
    match findFencedBlock cs with
    | some content =>
      match jsonParseL content with
      | some v => .ok v
      | none => .error "SyntaxError"
    | none =>
      match bracesSubstring cs with
      | some sub =>
        match jsonParseL sub with
        | some v => .ok v
        | none => .error "SyntaxError"
      | none => .error "Could not extract valid JSON from response"

-- Helper lemmas about the parsing strategies.

/-- A text whose first character is a backtick is not valid JSON. -/
theorem parseValue_backtick_head (fuel : Nat) (rest : List Char) :
    parseValue fuel ('\x60' :: rest) = none := by
  cases fuel with
  | zero => rfl
  | succ n =>
    simp [parseValue, skipWs, List.dropWhile_cons, isJsonWs, headIs,
      parseNumber, parseNumFracPart, parseNumExpPart]

/-- `JSON.parse` rejects any text starting with a backtick. -/
theorem jsonParseL_backtick_head (rest : List Char) :
    jsonParseL ('\x60' :: rest) = none := by
  simp [jsonParseL, parseValue_backtick_head]

/-- Scanning for a ``` ``` ``` marker walks past backtick-free text. -/
theorem splitFirstSub_bt3_marker (cs tail' : List Char)
    (h : '\x60' ∉ cs) :
    splitFirstSub ['\x60', '\x60', '\x60']
      (cs ++ '\x60' :: '\x60' :: '\x60' :: tail') = some (cs, tail') := by
  induction cs with
  | nil => simp [splitFirstSub, startsWithPat, List.drop]
  | cons c cs ih =>
    have hc : ('\x60' : Char) ≠ c := fun e => h (by simp [e.symm])
    have ih' := ih (fun m => h (List.mem_cons_of_mem _ m))
    simp only [List.cons_append, splitFirstSub, startsWithPat, hc]
    simp [ih']

/-- A pattern starting with a backtick never occurs in backtick-free
text. -/
theorem splitFirstSub_none_no_bt (ps cs : List Char) (h : '\x60' ∉ cs) :
    splitFirstSub ('\x60' :: ps) cs = none := by
  induction cs with
  | nil => simp [splitFirstSub, startsWithPat]
  | cons c cs ih =>
    have hc : ('\x60' : Char) ≠ c := fun e => h (by simp [e.symm])
    have ih' := ih (fun m => h (List.mem_cons_of_mem _ m))
    simp [splitFirstSub, startsWithPat, hc, ih']

/-- Trimming absorbs a leading whitespace character. -/
theorem trimChars_cons_ws (c : Char) (cs : List Char)
    (h : isRegexWs c = true) : trimChars (c :: cs) = trimChars cs := by
  simp [trimChars, List.dropWhile_cons, h]

/-- Trimming absorbs a trailing whitespace character. -/
theorem trimChars_append_ws (cs : List Char) (c : Char)
    (h : isRegexWs c = true) : trimChars (cs ++ [c]) = trimChars cs := by
  unfold trimChars
  rw [List.dropWhile_append]
  by_cases he : (cs.dropWhile isRegexWs).isEmpty
  · rw [List.isEmpty_iff] at he
    simp [he, List.dropWhile_cons, h]
  · have hf : (cs.dropWhile isRegexWs).isEmpty = false := by
      cases hx : (cs.dropWhile isRegexWs).isEmpty
      · rfl
      · exact absurd hx he
    rw [hf]
    simp only [Bool.false_eq_true, if_false]
    rw [List.reverse_append]
    simp [List.dropWhile_cons, h]

/-- `indexOf` finds the first occurrence after a clean prefix. -/
theorem idxOfChar_append_first (c : Char) (pre rest : List Char)
    (h : c ∉ pre) : idxOfChar c (pre ++ c :: rest) = some pre.length := by
  induction pre with
  | nil => simp [idxOfChar]
  | cons x xs ih =>
    have hx : x ≠ c := fun e => h (by simp [e])
    have ih' := ih (fun m => h (List.mem_cons_of_mem _ m))
    simp [idxOfChar, hx, ih']

/-- When the pattern matches at the head, the split is immediate. -/
theorem splitFirstSub_cons_pos (pat : List Char) (c : Char) (cs : List Char)
    (h : startsWithPat pat (c :: cs) = true) :
    splitFirstSub pat (c :: cs) = some ([], (c :: cs).drop pat.length) := by
  simp [splitFirstSub, h]

/-- Wrapping a backtick-free payload in a ```` ```json ```` fence makes
the fenced-block strategy recover exactly the trimmed payload. -/
theorem findFencedBlock_wrap (p : List Char) (hnb : '\x60' ∉ p) :
    findFencedBlock ("```json\n".data ++ p ++ "\n```".data) =
      some (trimChars p) := by
  have hdata : ("```json\n".data : List Char) =
      ['\x60', '\x60', '\x60', 'j', 's', 'o', 'n', '\n'] := rfl
  have hdata2 : ("\n```".data : List Char) =
      ['\n', '\x60', '\x60', '\x60'] := rfl
  rw [hdata, hdata2]
  simp only [List.cons_append, List.nil_append]
  have hnotmem : '\x60' ∉ ('\n' :: (p ++ ['\n'])) := by
    intro hmem
    rcases List.mem_cons.mp hmem with h | h
    · exact absurd h (by decide)
    · rcases List.mem_append.mp h with h | h
      · exact hnb h
      · exact absurd h (by decide)
  have hshape : ('\n' : Char) :: (p ++ ['\n', '\x60', '\x60', '\x60']) =
      ('\n' :: (p ++ ['\n'])) ++ '\x60' :: '\x60' :: '\x60' :: [] := by
    simp
  have h1 : splitFirstSub ['\x60', '\x60', '\x60', 'j', 's', 'o', 'n']
      ('\x60' :: '\x60' :: '\x60' :: 'j' :: 's' :: 'o' :: 'n' :: '\n' ::
        (p ++ ['\n', '\x60', '\x60', '\x60'])) =
      some ([], '\n' :: (p ++ ['\n', '\x60', '\x60', '\x60'])) := by
    rw [splitFirstSub_cons_pos _ _ _ (by rfl)]
    rfl
  have h2 : splitFirstSub ['\x60', '\x60', '\x60']
      ('\n' :: (p ++ ['\n', '\x60', '\x60', '\x60'])) =
      some ('\n' :: (p ++ ['\n']), []) := by
    rw [hshape]
    exact splitFirstSub_bt3_marker _ _ hnotmem
  have htrim : trimChars ('\n' :: (p ++ ['\n'])) = trimChars p := by
    rw [trimChars_cons_ws _ _ (by decide), trimChars_append_ws _ _ (by decide)]
  have hjson : fencedWith ['j', 's', 'o', 'n']
      ('\x60' :: '\x60' :: '\x60' :: 'j' :: 's' :: 'o' :: 'n' :: '\n' ::
        (p ++ ['\n', '\x60', '\x60', '\x60'])) = some (trimChars p) := by
    rw [fencedWith]
    simp only [List.cons_append, List.nil_append]
    rw [h1]
    dsimp only
    rw [h2]
    dsimp only
    rw [htrim]
  rw [findFencedBlock, hjson]

/-- The fenced-block strategy finds nothing in backtick-free text. -/
theorem findFencedBlock_none_no_bt (cs : List Char) (h : '\x60' ∉ cs) :
    findFencedBlock cs = none := by
  rw [findFencedBlock, fencedWith, fencedWith]
  simp only [List.cons_append, List.nil_append]
  rw [splitFirstSub_none_no_bt _ _ h, splitFirstSub_none_no_bt _ _ h]

/-- C7 (amended): the parser applies its three strategies in order, but a
`JSON.parse` failure inside strategy (b) or (c) escapes uncaught instead
of falling through to the next strategy; subject to that, the strategies
agree where they overlap: a backtick-free, trimmed payload that parses as
a whole yields the same value when wrapped in a ```` ```json ```` fence,
and an object payload yields the same value when surrounded by
brace-free, backtick-free prose that spoils the whole-text parse. -/
theorem parseClaudeJSON_fence_and_prose_invariance :
    (∀ (p : List Char) (v : Json),
      '\x60' ∉ p → trimChars p = p → jsonParseL p = some v →
      parseClaudeJSON ("```json\n".data ++ p ++ "\n```".data) = .ok v)
    ∧ (∀ (pre mid post : List Char) (v : Json),
      (∀ x ∈ pre, x ≠ '\x60' ∧ x ≠ '\x7b' ∧ x ≠ '\x7d') →
      (∀ x ∈ post, x ≠ '\x60' ∧ x ≠ '\x7b' ∧ x ≠ '\x7d') →
      '\x60' ∉ mid →
      jsonParseL ('\x7b' :: mid ++ ['\x7d']) = some v →
      jsonParseL (pre ++ ('\x7b' :: mid ++ ['\x7d']) ++ post) = none →
      parseClaudeJSON (pre ++ ('\x7b' :: mid ++ ['\x7d']) ++ post) = .ok v) := by
  constructor
  · intro p v hnb htr hp
    have hwhole : jsonParseL ("```json\n".data ++ p ++ "\n```".data) = none :=
      jsonParseL_backtick_head _
    have hfence := findFencedBlock_wrap p hnb
    rw [parseClaudeJSON, hwhole]
    dsimp only
    rw [hfence]
    dsimp only
    rw [htr, hp]
  · intro pre mid post v hpre hpost hmid hp hwhole
    have hnbp : '\x60' ∉ ('\x7b' :: mid ++ ['\x7d']) := by
      intro hmem
      rcases List.mem_cons.mp hmem with h | h
      · exact absurd h (by decide)
      · rcases List.mem_append.mp h with h | h
        · exact hmid h
        · exact absurd h (by decide)
    have hnball : '\x60' ∉ (pre ++ ('\x7b' :: mid ++ ['\x7d']) ++ post) := by
      intro hmem
      rcases List.mem_append.mp hmem with h | h
      · rcases List.mem_append.mp h with h | h
        · exact ((hpre _ h).1) rfl
        · exact hnbp h
      · exact ((hpost _ h).1) rfl
    have hfence : findFencedBlock
        (pre ++ ('\x7b' :: mid ++ ['\x7d']) ++ post) = none :=
      findFencedBlock_none_no_bt _ hnball
    have hidx : idxOfChar '\x7b'
        (pre ++ ('\x7b' :: mid ++ ['\x7d']) ++ post) =
        some pre.length := by
      have hshape : pre ++ ('\x7b' :: mid ++ ['\x7d']) ++ post =
          pre ++ '\x7b' :: (mid ++ ['\x7d'] ++ post) := by
        simp
      rw [hshape]
      exact idxOfChar_append_first _ _ _ (fun m => ((hpre _ m).2.1) rfl)
    have hlast : lastIdxOfChar '\x7d'
        (pre ++ ('\x7b' :: mid ++ ['\x7d']) ++ post) =
        some (pre.length + mid.length + 1) := by
      rw [lastIdxOfChar]
      have hrev : (pre ++ ('\x7b' :: mid ++ ['\x7d']) ++ post).reverse =
          post.reverse ++ '\x7d' :: (mid.reverse ++ '\x7b' :: pre.reverse) := by
        simp
      rw [hrev, idxOfChar_append_first _ _ _
        (fun m => ((hpost _ (List.mem_reverse.mp m)).2.2) rfl)]
      simp only [Option.map, List.length_reverse, List.length_append,
        List.length_cons, List.length_nil]
      congr 1
      omega
    have hsub : bracesSubstring
        (pre ++ ('\x7b' :: mid ++ ['\x7d']) ++ post) =
        some ('\x7b' :: mid ++ ['\x7d']) := by
      rw [bracesSubstring, hidx, hlast]
      have hlen : ('\x7b' :: mid ++ ['\x7d']).length = mid.length + 2 := by
        simp
      have hmin : min pre.length (pre.length + mid.length + 1 + 1) =
          pre.length := by omega
      have hmax : max pre.length (pre.length + mid.length + 1 + 1) =
          pre.length + (mid.length + 2) := by omega
      dsimp only
      simp only [jsSubstring]
      rw [hmin, hmax, ← hlen, List.append_assoc, List.take_append,
        List.take_left, List.drop_left]
    rw [parseClaudeJSON, hwhole]
    dsimp only
    rw [hfence]
    dsimp only
    rw [hsub]
    dsimp only
    rw [hp]

/-- Witness for `parseClaudeJSON_fence_and_prose_invariance` at a
concrete object payload, fenced and prose-wrapped. -/
theorem parseClaudeJSON_fence_and_prose_invariance_witness :
    parseClaudeJSON
        ("```json\n".data ++ "\x7b\"a\": 1\x7d".data ++ "\n```".data) =
      .ok (.obj [("a", .num 1 0)])
    ∧ parseClaudeJSON ("Result: ".data ++
        ('\x7b' :: " \"a\": 1 ".data ++ ['\x7d']) ++ " end.".data) =
      .ok (.obj [("a", .num 1 0)]) :=
  ⟨parseClaudeJSON_fence_and_prose_invariance.1 _ _ (by decide) rfl rfl,
   parseClaudeJSON_fence_and_prose_invariance.2 _ _ _ _
     (by decide) (by decide) (by decide) rfl rfl⟩

/-- C7 (counterexample): the claim fails as stated.  On
`"```\nnot json\n```\nmeta: \x7b"a": 1\x7d"` the fenced block matches
but its contents are not JSON, so the parser fails with an uncaught
`SyntaxError` even though strategy (c)'s brace substring `\x7b"a": 1\x7d`
parses — contradicting "fails only when all three fail".  And the payload
`[1,2]` parses whole (strategy a) but, surrounded by plain prose, every
strategy misses it — contradicting order-independence for non-object
payloads. -/
theorem parseClaudeJSON_strategy_order_counterexample :
    parseClaudeJSON "```\nnot json\n```\nmeta: \x7b\"a\": 1\x7d".data =
      .error "SyntaxError"
    ∧ bracesSubstring "```\nnot json\n```\nmeta: \x7b\"a\": 1\x7d".data =
        some "\x7b\"a\": 1\x7d".data
    ∧ jsonParseL "\x7b\"a\": 1\x7d".data = some (.obj [("a", .num 1 0)])
    ∧ jsonParseL "[1,2]".data = some (.arr [.num 1 0, .num 2 0])
    ∧ parseClaudeJSON "Here is the result: [1,2] as requested.".data =
        .error "Could not extract valid JSON from response" :=
  ⟨rfl, rfl, rfl, rfl, rfl⟩

-- ===========================================================================
-- Title extraction (src/lib/pdf/parser.ts) and filename handling
-- ===========================================================================

/-- Split a character list on a separator character (`String.split`). -/
def splitOnChar (sep : Char) (cs : List Char) : List (List Char) :=
  cs.foldr
    (fun c acc =>
      if c = sep then [] :: acc
      else match acc with
        | a :: as => (c :: a) :: as
        | [] => [[c]])
    [[]]

/-- Count the `\s+`-separated words of a character list (the
`trimmed.split(/\s+/).length` of a trimmed line). -/
def countWordsGo : Bool → List Char → Nat
  | _, [] => 0
  | inWord, c :: rest =>
    if isRegexWs c then countWordsGo false rest
    else (if inWord then 0 else 1) + countWordsGo true rest

/-- Word count of a (trimmed, non-empty) line. -/
def countWords (cs : List Char) : Nat :=
  countWordsGo false cs

/-- `extractTitle` from `src/lib/pdf/parser.ts`: look at the first 500
characters, keep non-blank lines, return the first line with 3–20 words
(else the first line, else `Untitled`). -/
def extractTitle (text : String) : String :=
  let beginning := text.data.take 500
  let lines := (splitOnChar '\n' beginning).filter
    (fun line => trimChars line ≠ [])
  match lines with
  | [] => "Untitled"
  | l0 :: _ =>
    match lines.find? (fun line =>
        3 ≤ countWords (trimChars line) ∧ countWords (trimChars line) ≤ 20) with
    | some line => String.mk (trimChars line)
    | none => String.mk (trimChars l0)

/-- `filename.replace(/\.[^/.]+$/, '')`: strip a trailing dot-extension
that contains no slash. -/
def stripFileExt (s : String) : String :=
  match lastIdxOfChar '.' s.data with
  | none => s
  | some k =>
    if s.data.length - 1 - k ≥ 1 ∧ '/' ∉ s.data.drop (k + 1) then
      String.mk (s.data.take k)
    else s

-- ===========================================================================
-- Orchestrator (src/lib/orchestrator/index.ts)
-- ===========================================================================

/-- `maxIterations` from the orchestrator. -/
def maxIterations : Nat := 3

/-- One logical call to the Model Gateway, with the inputs it was built
from.  The `editor`/`review`/`synthesis` calls belong to the main review
workflow; `topolEditor`/`topolReview` to the Topol review route. -/
inductive GatewayCall
  | editor (excerpt journalName criteria : String)
  | review (round idx : Nat) (specialty excerpt : String)
  | synthesis (round : Nat) (excerpt : String)
  | topolEditor (abstract methods : String)
  | topolReview (idx : Nat) (specialty abstract methods guidance : String)
deriving DecidableEq, Repr

/-- Gateway traffic event: a call is dispatched, or its response
arrives.  An `await` on a single call produces the dispatch immediately
followed by the response; a `Promise.all` fan-out produces all
dispatches before any response. -/
inductive Event
  | dispatch (call : GatewayCall)
  | response (call : GatewayCall)
deriving DecidableEq, Repr

/-- The review round a call belongs to (0 for out-of-round calls). -/
def callRound : GatewayCall → Nat
  | .editor _ _ _ => 0
  | .review r _ _ _ => r
  | .synthesis r _ => r
  | .topolEditor _ _ => 0
  | .topolReview _ _ _ _ _ => 0

/-- The round an event belongs to. -/
def eventRound : Event → Nat
  | .dispatch c => callRound c
  | .response c => callRound c

/-- The environment supplying every external response of a run: the
journal criteria lookup and the model's reply to each prompt (editorial
assessment, per-round reviews, per-round synthesis). -/
structure Env where
  apiKeyPresent : Bool := true
  journalScope : String := ""
  journalCriteria : String := ""
  assessment : EditorialAssessment
  review : Nat → Fin 2 → PeerReview
  synthesis : Nat → IterationSynthesis

/-- The early-stop test of the orchestrator loop:
`recommendation === 'Accept' || recommendation === 'Minor Revisions'`. -/
def isPositive (r : ReviewRecommendation) : Bool :=
  r = .accept || r = .minorRevisions

/-- The iteration loop of `orchestrateReview` (`for i = 1..maxIterations`
with its two `break` conditions).  `remaining` is the number of loop
iterations the `for` condition still allows (`maxIterations + 1 - i`);
each round awaits reviewer 1, then reviewer 2, then (except on the final
round) the synthesis, appends one `ReviewIteration`, and stops early when
the synthesis decision is Accept/Reject or both reviewers are
positive. -/
def runLoop (env : Env) (articleText : String) :
    Nat → Nat → List ReviewIteration × List Event
  | 0, _ => ([], [])
  | remaining + 1, i =>
    let excerpt := truncateArticle articleText
    let sp1 := env.assessment.selectedReviewers.1.specialty
    let sp2 := env.assessment.selectedReviewers.2.specialty
    let review1 := env.review i 0
    let review2 := env.review i 1
    let c1 : GatewayCall := .review i 0 sp1 excerpt
    let c2 : GatewayCall := .review i 1 sp2 excerpt
    let reviewEvents : List Event :=
      [.dispatch c1, .response c1, .dispatch c2, .response c2]
    let iterationBase : ReviewIteration :=
      { iterationNumber := i
        reviews := (review1, review2)
        editorialAssessment := if i = 1 then some env.assessment else none }
    if i < maxIterations then
      let syn := env.synthesis i
      let cSyn : GatewayCall := .synthesis i excerpt
      let events := reviewEvents ++ [.dispatch cSyn, .response cSyn]
      let iteration := { iterationBase with synthesis := some syn }
      if syn.decision = .sAccept ∨ syn.decision = .sReject then
        ([iteration], events)
      else if isPositive review1.recommendation = true ∧
          isPositive review2.recommendation = true then
        ([iteration], events)
      else
        let rest := runLoop env articleText remaining (i + 1)
        (iteration :: rest.1, events ++ rest.2)
    else
      ([iterationBase], reviewEvents)

/-- `createDeskRejectReport` from the orchestrator. -/
def createDeskRejectReport (articleTitle journalName : String)
    (editorialAssessment : EditorialAssessment) (now : Nat) : ReviewReport :=
  { articleTitle := articleTitle
    targetJournal := journalName
    reviewDate := now
    totalIterations := 0
    finalRecommendation := .reject
    finalRationale :=
      "This article was desk rejected by the Editor. " ++
        editorialAssessment.rationale
    iterations := []
    priorityRecommendations :=
      ["Article does not meet journal criteria - consider alternative journals",
       "Review editorial feedback and revise substantially before resubmission"]
    strengthsToPreserve := []
    criticalIssuesToAddress := ["See editorial rationale for specific concerns"]
    suggestedNextSteps :=
      ["Review journal scope and ensure alignment",
       "Consider feedback from editorial assessment",
       "Identify more appropriate target journals"]
    trajectoryAnalysis :=
      { overallConvergence := "Article was not sent for peer review." } }

/-- Insertion into a JS `Set` (insertion-ordered, deduplicating). -/
def jsSetAdd (seen : List String) (x : String) : List String :=
  if x ∈ seen then seen else seen ++ [x]

/-- `extractAllRecommendations` from the orchestrator. -/
def extractAllRecommendations (iterations : List ReviewIteration) :
    List ReviewRecommendation :=
  iterations.flatMap
    (fun iter => [iter.reviews.1.recommendation, iter.reviews.2.recommendation])

/-- `analyzeTrajectory` from the orchestrator. -/
def analyzeTrajectory (iterations : List ReviewIteration) :
    TrajectoryAnalysis :=
  let step1 : Option TrajectoryStep :=
    if 2 ≤ iterations.length then
      some { improvements :=
              ((iterations.get? 1).bind (·.synthesis)
                |>.map (·.simulatedRevisions)).getD []
             persistentIssues :=
              ((iterations.get? 1).bind (·.synthesis)
                |>.map (·.criticalIssues)).getD [] }
    else none
  let step2 : Option TrajectoryStep :=
    if 3 ≤ iterations.length then
      some { improvements :=
              ((iterations.get? 2).bind (·.synthesis)
                |>.map (·.simulatedRevisions)).getD []
             persistentIssues :=
              ((iterations.get? 2).bind (·.synthesis)
                |>.map (·.criticalIssues)).getD [] }
    else none
  let overall : String :=
    match iterations.getLast? with
    | none => ""
    | some last =>
      match last.synthesis with
      | some syn => syn.convergence.progressSummary
      | none =>
        let positives := ([last.reviews.1, last.reviews.2].filter
          (fun r => isPositive r.recommendation)).length
        if positives = 2 then
          "Both reviewers recommend acceptance or minor revisions."
        else if positives = 1 then
          "Mixed recommendations - some concerns remain."
        else "Significant revisions needed based on reviewer feedback."
  { overallConvergence := overall
    iteration1to2 := step1
    iteration2to3 := step2 }

/-- `compilePriorityRecommendations` from the orchestrator: critical
issues from every synthesis, then the first two suggestions of each
final-round review, deduplicated in insertion order, capped at 8. -/
def compilePriorityRecommendations (iterations : List ReviewIteration) :
    List String :=
  let withCrit := iterations.foldl
    (fun acc iter =>
      match iter.synthesis with
      | some syn => syn.criticalIssues.foldl jsSetAdd acc
      | none => acc)
    []
  let lastReviews : List PeerReview :=
    match iterations.getLast? with
    | some it => [it.reviews.1, it.reviews.2]
    | none => []
  let withSugg := lastReviews.foldl
    (fun acc r => (r.suggestions.take 2).foldl jsSetAdd acc) withCrit
  withSugg.take 8

/-- `extractStrengthsAndIssues` from the orchestrator. -/
def extractStrengthsAndIssues (iterations : List ReviewIteration) :
    List String × List String :=
  let pools := iterations.foldl
    (fun (acc : List String × List String) iter =>
      let acc1 := [iter.reviews.1, iter.reviews.2].foldl
        (fun (a : List String × List String) r =>
          (r.strengths.foldl jsSetAdd a.1,
           (r.weaknesses.take 3).foldl jsSetAdd a.2))
        acc
      match iter.synthesis with
      | some syn => (acc1.1, syn.criticalIssues.foldl jsSetAdd acc1.2)
      | none => acc1)
    ([], [])
  (pools.1.take 6, pools.2.take 6)

/-- The display string of a recommendation. -/
def recString : ReviewRecommendation → String
  | .accept => "Accept"
  | .minorRevisions => "Minor Revisions"
  | .majorRevisions => "Major Revisions"
  | .reject => "Reject"

/-- `generateNextSteps` from the orchestrator. -/
def generateNextSteps (recommendation : ReviewRecommendation)
    (iterations : List ReviewIteration) : List String :=
  let steps : List String :=
    match recommendation with
    | .accept =>
      ["Prepare final manuscript for submission",
       "Address any minor suggestions from reviewers",
       "Ensure all formatting requirements are met"]
    | .minorRevisions =>
      ["Address all reviewer comments systematically",
       "Prepare point-by-point response letter",
       "Revise and resubmit within suggested timeframe"]
    | .majorRevisions =>
      ["Conduct additional analyses as suggested",
       "Substantially revise methodology/interpretation sections",
       "Consider additional experiments or data collection",
       "Prepare detailed response addressing all major concerns"]
    | .reject =>
      ["Carefully review all feedback",
       "Consider substantial restructuring of the work",
       "Identify alternative target journals",
       "Address fundamental methodological concerns before resubmission"]
  let lastReviews : List PeerReview :=
    match iterations.getLast? with
    | some it => [it.reviews.1, it.reviews.2]
    | none => []
  let steps2 := lastReviews.foldl
    (fun acc r =>
      match r.suggestions with
      | s :: _ => acc ++ [s]
      | [] => acc)
    steps
  steps2.take 6

/-- `generateFinalRationale` from the orchestrator. -/
def generateFinalRationale (recommendation : ReviewRecommendation)
    (iterations : List ReviewIteration)
    (trajectory : TrajectoryAnalysis) : String :=
  let lastRecs : List String :=
    match iterations.getLast? with
    | some it => [recString it.reviews.1.recommendation,
                  recString it.reviews.2.recommendation]
    | none => []
  String.intercalate " "
    ["After " ++ toString iterations.length ++
      " iteration(s) of peer review, the final recommendation is: **" ++
      recString recommendation ++ "**.",
     trajectory.overallConvergence,
     "Final reviewers recommended: " ++
       String.intercalate " and " lastRecs ++ "."]

/-- `generateFinalReport` from the orchestrator.  Returns `none` when
the iteration list is empty (where the source would crash dereferencing
`iterations[iterations.length - 1]`; its callers guarantee at least one
round). -/
def generateFinalReport (articleTitle journalName : String)
    (iterations : List ReviewIteration) (now : Nat) : Option ReviewReport :=
  match iterations.getLast? with
  | none => none
  | some lastIteration =>
    let finalRecommendation :=
      determineFinalRecommendation lastIteration.reviews.1
        lastIteration.reviews.2
    let trajectoryAnalysis := analyzeTrajectory iterations
    let pools := extractStrengthsAndIssues iterations
    some
      { articleTitle := articleTitle
        targetJournal := journalName
        reviewDate := now
        totalIterations := iterations.length
        finalRecommendation := finalRecommendation
        finalRationale := generateFinalRationale finalRecommendation
          iterations trajectoryAnalysis
        iterations := iterations
        priorityRecommendations := compilePriorityRecommendations iterations
        strengthsToPreserve := pools.1
        criticalIssuesToAddress := pools.2
        suggestedNextSteps := generateNextSteps finalRecommendation iterations
        trajectoryAnalysis := trajectoryAnalysis }

/-- `orchestrateReview` from `src/lib/orchestrator/index.ts` on the
plain-text path (`isPlainText = true`): validate the API key, take the
provided text and title, enforce the 100-character minimum, fetch the
journal criteria (a collaborator, not a gateway call), get the editorial
assessment, short-circuit on desk reject, else run the iteration loop
and assemble the final report.  Returns the result together with the
gateway event trace. -/
def orchestrateReview (env : Env) (articleText filename journalName : String)
    (now : Nat) : Except String ReviewReport × List Event :=
  if env.apiKeyPresent = false then
    (.error ("ANTHROPIC_API_KEY environment variable is not set. " ++
      "Please add it to your .env.local file."), [])
  else
    let articleTitle :=
      if extractTitle articleText = "" then stripFileExt filename
      else extractTitle articleText
    if articleText.length < 100 then
      (.error "Article text is too short (minimum 100 characters required).",
        [])
    else
      let criteria := env.journalScope ++ "\n\n" ++ env.journalCriteria
      let editorCall : GatewayCall :=
        .editor (truncateArticle articleText) journalName criteria
      let editorEvents : List Event :=
        [.dispatch editorCall, .response editorCall]
      if env.assessment.decision = .deskReject then
        (.ok (createDeskRejectReport articleTitle journalName
          env.assessment now), editorEvents)
      else
        let loop := runLoop env articleText maxIterations 1
        match generateFinalReport articleTitle journalName loop.1 now with
        | some report => (.ok report, editorEvents ++ loop.2)
        | none => (.error "no iterations", editorEvents ++ loop.2)

-- ===========================================================================
-- C9, C10, C3, C2: orchestrator theorems
-- ===========================================================================

/-- C9: a manuscript shorter than 100 characters fails the length
validation with the too-short error before any Model Gateway call is
issued — the gateway trace of such a run is empty. -/
theorem orchestrate_short_input_rejected_before_gateway
    (env : Env) (text filename journal : String) (now : Nat)
    (hkey : env.apiKeyPresent = true) (hlen : text.length < 100) :
    orchestrateReview env text filename journal now =
      (.error "Article text is too short (minimum 100 characters required).",
        []) := by
  simp [orchestrateReview, hkey, hlen]

/-- A sample environment used to instantiate the orchestrator theorems. -/
def sampleAssessment (decision : EditorDecision) : EditorialAssessment :=
  { decision := decision
    rationale := "sample rationale"
    classification :=
      { primaryField := "Medical Research", subSpecialty := "Oncology" }
    selectedReviewers :=
      ({ specialty := "Oncology", rationale := "fit" },
       { specialty := "Cardiology & Cardiovascular Research",
         rationale := "fit" })
    editorialGuidance := "focus on methods" }

/-- A sample peer review with the given recommendation. -/
def sampleReview (rec : ReviewRecommendation) : PeerReview :=
  { reviewerSpecialty := "Oncology"
    recommendation := rec
    summary := "sample summary"
    strengths := ["clear writing"]
    weaknesses := ["small sample"]
    suggestions := ["add controls"] }

/-- A sample environment: accepted for review, both reviewers always
ask for major revisions, synthesis always continues. -/
def sampleEnv : Env :=
  { assessment := sampleAssessment .acceptForReview
    review := fun _ _ => sampleReview .majorRevisions
    synthesis := fun i => { iterationNumber := i, decision := .sContinue } }

/-- A 99-character manuscript (9 × 11-character words). -/
def shortManuscript : String :=
  String.mk (List.replicate 99 'a')

/-- Witness for `orchestrate_short_input_rejected_before_gateway` at a
99-character manuscript. -/
theorem orchestrate_short_input_rejected_before_gateway_witness :
    sampleEnv.apiKeyPresent = true ∧ shortManuscript.length < 100 ∧
    orchestrateReview sampleEnv shortManuscript "draft.pdf" "Nature" 0 =
      (.error "Article text is too short (minimum 100 characters required).",
        []) :=
  ⟨rfl, by decide,
   orchestrate_short_input_rejected_before_gateway sampleEnv shortManuscript
     "draft.pdf" "Nature" 0 rfl (by decide)⟩

/-- C10: every desk-rejected run returns the templated desk-reject
report: recommendation Reject, zero iterations, empty iteration and
strengths lists, a non-empty rationale embedding the classification
rationale, and fixed priority recommendations and next steps that do not
depend on the manuscript. -/
theorem orchestrate_desk_reject_report (env : Env)
    (text filename journal : String) (now : Nat)
    (hkey : env.apiKeyPresent = true) (hlen : 100 ≤ text.length)
    (hdesk : env.assessment.decision = .deskReject) :
    ∃ report : ReviewReport,
      (orchestrateReview env text filename journal now).1 = .ok report ∧
      report.finalRecommendation = .reject ∧
      report.totalIterations = 0 ∧
      report.iterations = [] ∧
      report.strengthsToPreserve = [] ∧
      report.finalRationale =
        "This article was desk rejected by the Editor. " ++
          env.assessment.rationale ∧
      report.finalRationale ≠ "" ∧
      report.priorityRecommendations =
        ["Article does not meet journal criteria - consider alternative journals",
         "Review editorial feedback and revise substantially before resubmission"] ∧
      report.suggestedNextSteps =
        ["Review journal scope and ensure alignment",
         "Consider feedback from editorial assessment",
         "Identify more appropriate target journals"] := by
  have hnotshort : ¬ text.length < 100 := by omega
  refine ⟨createDeskRejectReport
    (if extractTitle text = "" then stripFileExt filename
      else extractTitle text) journal env.assessment now, ?_, rfl, rfl, rfl,
    rfl, rfl, ?_, rfl, rfl⟩
  · simp [orchestrateReview, hkey, hnotshort, hdesk]
  · intro hempty
    have h0 : ("This article was desk rejected by the Editor. " ++
        env.assessment.rationale) = "" := hempty
    have hlen0 := congrArg String.length h0
    rw [String.length_append] at hlen0
    have hpre : ("This article was desk rejected by the Editor. " :
        String).length = 46 := rfl
    have hz : ("" : String).length = 0 := rfl
    simp only [hpre, hz] at hlen0
    omega

/-- Witness for `orchestrate_desk_reject_report`: a desk-rejecting
environment on a 120-character manuscript. -/
def deskEnv : Env :=
  { assessment := sampleAssessment .deskReject
    review := fun _ _ => sampleReview .majorRevisions
    synthesis := fun i => { iterationNumber := i, decision := .sContinue } }

/-- A 120-character manuscript. -/
def longManuscript : String :=
  String.mk (List.replicate 120 'a')

/-- Witness for `orchestrate_desk_reject_report` at `deskEnv`. -/
theorem orchestrate_desk_reject_report_witness :
    deskEnv.assessment.decision = .deskReject ∧
    100 ≤ longManuscript.length ∧
    ∃ report : ReviewReport,
      (orchestrateReview deskEnv longManuscript "draft.pdf" "Nature" 0).1 =
        .ok report ∧
      report.finalRecommendation = .reject ∧
      report.totalIterations = 0 ∧
      report.iterations = [] ∧
      report.strengthsToPreserve = [] ∧
      report.finalRationale =
        "This article was desk rejected by the Editor. " ++
          deskEnv.assessment.rationale ∧
      report.finalRationale ≠ "" ∧
      report.priorityRecommendations =
        ["Article does not meet journal criteria - consider alternative journals",
         "Review editorial feedback and revise substantially before resubmission"] ∧
      report.suggestedNextSteps =
        ["Review journal scope and ensure alignment",
         "Consider feedback from editorial assessment",
         "Identify more appropriate target journals"] :=
  ⟨rfl, by decide,
   orchestrate_desk_reject_report deskEnv longManuscript "draft.pdf"
     "Nature" 0 rfl (by decide) rfl⟩

/-- The loop executes at most `remaining` more rounds. -/
theorem runLoop_length_le (env : Env) (text : String) :
    ∀ remaining i, (runLoop env text remaining i).1.length ≤ remaining := by
  intro remaining
  induction remaining with
  | zero => intro i; simp [runLoop]
  | succ n ih =>
    intro i
    by_cases h1 : i < maxIterations
    · by_cases h2 : (env.synthesis i).decision = .sAccept ∨
          (env.synthesis i).decision = .sReject
      · simp [runLoop, h1, h2]
      · by_cases h3 : isPositive (env.review i 0).recommendation = true ∧
            isPositive (env.review i 1).recommendation = true
        · simp [runLoop, h1, h2, h3]
        · have := ih (i + 1)
          simp only [runLoop, if_pos h1, if_neg h2, if_neg h3,
            List.length_cons]
          omega
    · simp [runLoop, h1]

/-- The loop executes at least one round when the cap allows any. -/
theorem runLoop_length_pos (env : Env) (text : String)
    (remaining i : Nat) (h : 1 ≤ remaining) :
    1 ≤ (runLoop env text remaining i).1.length := by
  cases remaining with
  | zero => omega
  | succ n =>
    by_cases h1 : i < maxIterations
    · by_cases h2 : (env.synthesis i).decision = .sAccept ∨
          (env.synthesis i).decision = .sReject
      · simp [runLoop, h1, h2]
      · by_cases h3 : isPositive (env.review i 0).recommendation = true ∧
            isPositive (env.review i 1).recommendation = true
        · simp [runLoop, h1, h2, h3]
        · simp only [runLoop, if_pos h1, if_neg h2, if_neg h3,
            List.length_cons]
          omega
    · simp [runLoop, h1]

/-- On an accepted-for-review run, `orchestrateReview` is the editor
call followed by the iteration loop and the final report assembly. -/
theorem orchestrate_accept_path (env : Env)
    (text filename journal : String) (now : Nat)
    (hkey : env.apiKeyPresent = true) (hlen : 100 ≤ text.length)
    (hdesk : env.assessment.decision ≠ .deskReject) :
    orchestrateReview env text filename journal now =
      (match generateFinalReport
          (if extractTitle text = "" then stripFileExt filename
            else extractTitle text) journal
          (runLoop env text maxIterations 1).1 now with
        | some report => .ok report
        | none => .error "no iterations",
       [.dispatch (.editor (truncateArticle text) journal
          (env.journalScope ++ "\n\n" ++ env.journalCriteria)),
        .response (.editor (truncateArticle text) journal
          (env.journalScope ++ "\n\n" ++ env.journalCriteria))] ++
         (runLoop env text maxIterations 1).2) := by
  have hnotshort : ¬ text.length < 100 := by omega
  unfold orchestrateReview
  rw [if_neg (by simp [hkey]), if_neg hnotshort, if_neg hdesk]
  cases hg : generateFinalReport
      (if extractTitle text = "" then stripFileExt filename
        else extractTitle text) journal
      (runLoop env text maxIterations 1).1 now with
  | none => simp [hg]
  | some r => simp [hg]

/-- A non-empty list has a last element. -/
theorem getLast?_cons_exists {α : Type} (a : α) (as : List α) :
    ∃ l, (a :: as).getLast? = some l := by
  induction as generalizing a with
  | nil => exact ⟨a, rfl⟩
  | cons b bs ih =>
    obtain ⟨l, hl⟩ := ih b
    exact ⟨l, by rw [List.getLast?_cons_cons, hl]⟩

/-- C3: for every manuscript passing the 100-character validation, the
run returns a report whose iteration count is 0 (desk-reject path, empty
iteration list) or between 1 and 3 — a 4th round is never executed. -/
theorem orchestrate_round_count (env : Env)
    (text filename journal : String) (now : Nat)
    (hkey : env.apiKeyPresent = true) (hlen : 100 ≤ text.length) :
    ∃ report : ReviewReport,
      (orchestrateReview env text filename journal now).1 = .ok report ∧
      report.totalIterations = report.iterations.length ∧
      ((env.assessment.decision = .deskReject ∧
          report.totalIterations = 0 ∧ report.iterations = []) ∨
        (1 ≤ report.totalIterations ∧ report.totalIterations ≤ 3)) := by
  have hnotshort : ¬ text.length < 100 := by omega
  by_cases hdesk : env.assessment.decision = .deskReject
  · refine ⟨createDeskRejectReport
      (if extractTitle text = "" then stripFileExt filename
        else extractTitle text) journal env.assessment now, ?_, rfl,
      Or.inl ⟨hdesk, rfl, rfl⟩⟩
    simp [orchestrateReview, hkey, hnotshort, hdesk]
  · have hpath := orchestrate_accept_path env text filename journal now
      hkey hlen hdesk
    have hpos := runLoop_length_pos env text maxIterations 1 (by decide)
    have hle := runLoop_length_le env text maxIterations 1
    obtain ⟨last, hlast⟩ :
        ∃ l, (runLoop env text maxIterations 1).1.getLast? = some l := by
      cases hl : (runLoop env text maxIterations 1).1 with
      | nil => rw [hl] at hpos; exact absurd hpos (by decide)
      | cons a as => exact getLast?_cons_exists a as
    obtain ⟨rep, hrep, hnum, hits⟩ :
        ∃ rep, generateFinalReport
            (if extractTitle text = "" then stripFileExt filename
              else extractTitle text) journal
            (runLoop env text maxIterations 1).1 now = some rep ∧
          rep.totalIterations = (runLoop env text maxIterations 1).1.length ∧
          rep.iterations = (runLoop env text maxIterations 1).1 := by
      rw [generateFinalReport, hlast]
      exact ⟨_, rfl, rfl, rfl⟩
    refine ⟨rep, ?_, ?_, Or.inr ⟨?_, ?_⟩⟩
    · have h1 := congrArg Prod.fst hpath
      dsimp only at h1
      rw [h1, hrep]
    · rw [hnum, hits]
    · omega
    · have : maxIterations = 3 := rfl
      omega

/-- Witness for `orchestrate_round_count`: an environment whose
reviewers always ask for major revisions runs and reports 1–3 rounds. -/
theorem orchestrate_round_count_witness :
    sampleEnv.apiKeyPresent = true ∧ 100 ≤ longManuscript.length ∧
    ∃ report : ReviewReport,
      (orchestrateReview sampleEnv longManuscript "draft.pdf" "Nature"
        0).1 = .ok report ∧
      report.totalIterations = report.iterations.length ∧
      ((sampleEnv.assessment.decision = .deskReject ∧
          report.totalIterations = 0 ∧ report.iterations = []) ∨
        (1 ≤ report.totalIterations ∧ report.totalIterations ≤ 3)) :=
  ⟨rfl, by decide,
   orchestrate_round_count sampleEnv longManuscript "draft.pdf" "Nature" 0
     rfl (by decide)⟩

/-- The stop conditions of §4.4 step 4 after round `k`, stated on the
environment: the round-`k` synthesis decision is Accept or Reject, or
both round-`k` reviewer recommendations are positive. -/
def stopConditionsMet (env : Env) (k : Nat) : Prop :=
  (env.synthesis k).decision = .sAccept ∨
  (env.synthesis k).decision = .sReject ∨
  (isPositive (env.review k 0).recommendation = true ∧
   isPositive (env.review k 1).recommendation = true)

instance (env : Env) (k : Nat) : Decidable (stopConditionsMet env k) := by
  unfold stopConditionsMet
  infer_instance

/-- If the stop conditions hold after round `k < maxIterations`, then a
loop entered at any round `i ≤ k` only ever issues calls for rounds
`≤ k` and only appends iteration records numbered `≤ k`. -/
theorem runLoop_stop_bound (env : Env) (text : String) (k : Nat)
    (hstop : stopConditionsMet env k) (hk3 : k < maxIterations) :
    ∀ remaining i, 1 ≤ i → i ≤ k →
      (∀ e ∈ (runLoop env text remaining i).2, eventRound e ≤ k) ∧
      (∀ it ∈ (runLoop env text remaining i).1, it.iterationNumber ≤ k) := by
  intro remaining
  induction remaining with
  | zero => intro i _ _; simp [runLoop]
  | succ n ih =>
    intro i hi1 hik
    have h1 : i < maxIterations := lt_of_le_of_lt hik hk3
    by_cases h2 : (env.synthesis i).decision = .sAccept ∨
        (env.synthesis i).decision = .sReject
    · constructor
      · intro e he
        simp only [runLoop, if_pos h1, if_pos h2, List.cons_append,
          List.nil_append, List.mem_cons, List.not_mem_nil, or_false]
          at he
        rcases he with rfl | rfl | rfl | rfl | rfl | rfl <;>
          simpa [eventRound, callRound] using hik
      · intro it hit
        simp only [runLoop, if_pos h1, if_pos h2, List.mem_singleton] at hit
        subst hit
        simpa using hik
    · by_cases h3 : isPositive (env.review i 0).recommendation = true ∧
          isPositive (env.review i 1).recommendation = true
      · constructor
        · intro e he
          simp only [runLoop, if_pos h1, if_neg h2, if_pos h3,
            List.cons_append, List.nil_append, List.mem_cons,
            List.not_mem_nil, or_false] at he
          rcases he with rfl | rfl | rfl | rfl | rfl | rfl <;>
            simpa [eventRound, callRound] using hik
        · intro it hit
          simp only [runLoop, if_pos h1, if_neg h2, if_pos h3,
            List.mem_singleton] at hit
          subst hit
          simpa using hik
      · have hik' : i < k := by
          rcases Nat.lt_or_ge i k with h | h
          · exact h
          · exfalso
            have : i = k := Nat.le_antisymm hik h
            subst this
            rcases hstop with hs | hs | hs
            · exact h2 (Or.inl hs)
            · exact h2 (Or.inr hs)
            · exact h3 hs
        have ihnext := ih (i + 1) (by omega) (by omega)
        constructor
        · intro e he
          simp only [runLoop, if_pos h1, if_neg h2, if_neg h3,
            List.cons_append, List.nil_append, List.mem_cons,
            List.mem_append] at he
          rcases he with rfl | rfl | rfl | rfl | rfl | rfl | hmem
          · simpa [eventRound, callRound] using hik
          · simpa [eventRound, callRound] using hik
          · simpa [eventRound, callRound] using hik
          · simpa [eventRound, callRound] using hik
          · simpa [eventRound, callRound] using hik
          · simpa [eventRound, callRound] using hik
          · exact ihnext.1 e hmem
        · intro it hit
          simp only [runLoop, if_pos h1, if_neg h2, if_neg h3,
            List.mem_cons] at hit
          rcases hit with rfl | hmem
          · simpa using hik
          · exact ihnext.2 it hmem

/-- C2: if the stop conditions hold after round `k < 3` (synthesis
decision Accept/Reject, or both reviewer recommendations positive), then
round `k + 1` is never attempted: every gateway call in the trace belongs
to a round `≤ k`, and every appended iteration record is numbered
`≤ k`. -/
theorem orchestrate_stop_conditions (env : Env)
    (text filename journal : String) (now : Nat) (k : Nat)
    (hkey : env.apiKeyPresent = true) (hlen : 100 ≤ text.length)
    (hk1 : 1 ≤ k) (hk3 : k < maxIterations)
    (hstop : stopConditionsMet env k) :
    (∀ e ∈ (orchestrateReview env text filename journal now).2,
      eventRound e ≤ k) ∧
    (∀ report : ReviewReport,
      (orchestrateReview env text filename journal now).1 = .ok report →
      ∀ it ∈ report.iterations, it.iterationNumber ≤ k) := by
  have hnotshort : ¬ text.length < 100 := by omega
  by_cases hdesk : env.assessment.decision = .deskReject
  · have hor : orchestrateReview env text filename journal now =
        (.ok (createDeskRejectReport
          (if extractTitle text = "" then stripFileExt filename
            else extractTitle text) journal env.assessment now),
         [.dispatch (.editor (truncateArticle text) journal
            (env.journalScope ++ "\n\n" ++ env.journalCriteria)),
          .response (.editor (truncateArticle text) journal
            (env.journalScope ++ "\n\n" ++ env.journalCriteria))]) := by
      simp [orchestrateReview, hkey, hnotshort, hdesk]
    rw [hor]
    constructor
    · intro e he
      simp only [List.mem_cons, List.not_mem_nil, or_false] at he
      rcases he with rfl | rfl <;> simp [eventRound, callRound]
    · intro report hrep it hit
      have : report = createDeskRejectReport
          (if extractTitle text = "" then stripFileExt filename
            else extractTitle text) journal env.assessment now :=
        (Except.ok.inj hrep).symm
      subst this
      simp [createDeskRejectReport] at hit
  · have hpath := orchestrate_accept_path env text filename journal now
      hkey hlen hdesk
    have hbound := runLoop_stop_bound env text k hstop hk3 maxIterations 1
      (le_refl 1) hk1
    constructor
    · intro e he
      have h2 := congrArg Prod.snd hpath
      dsimp only at h2
      rw [h2] at he
      rcases List.mem_append.mp he with he | he
      · simp only [List.mem_cons, List.not_mem_nil, or_false] at he
        rcases he with rfl | rfl <;> simp [eventRound, callRound]
      · exact hbound.1 e he
    · intro report hrep it hit
      have h1 := congrArg Prod.fst hpath
      dsimp only at h1
      rw [h1] at hrep
      have hpos := runLoop_length_pos env text maxIterations 1 (by decide)
      obtain ⟨last, hlast⟩ :
          ∃ l, (runLoop env text maxIterations 1).1.getLast? = some l := by
        cases hl : (runLoop env text maxIterations 1).1 with
        | nil => rw [hl] at hpos; exact absurd hpos (by decide)
        | cons a as => exact getLast?_cons_exists a as
      rw [generateFinalReport, hlast] at hrep
      dsimp only at hrep
      have hrepeq := Except.ok.inj hrep
      have hits : report.iterations = (runLoop env text maxIterations 1).1 := by
        rw [← hrepeq]
      rw [hits] at hit
      exact hbound.2 it hit

-- ===========================================================================
-- Topol review route (src/app/api/review/route.ts, topol document, and
-- src/lib/claude/topol-prompts.ts)
-- ===========================================================================

/-- Lowercasing for the case-insensitive (`/i`) regex matches. -/
def toLowerList (cs : List Char) : List Char :=
  cs.map Char.toLower

/-- Index of the first occurrence of a pattern, if any. -/
def findSubIdx (pat cs : List Char) : Option Nat :=
  (splitFirstSub pat cs).map (fun p => p.1.length)

/-- Earliest of two optional indices. -/
def minOpt : Option Nat → Option Nat → Option Nat
  | some x, some y => some (min x y)
  | some x, none => some x
  | none, y => y

/-- Prefer the alternative that matches earlier in the text (and the
first-listed alternative on equal positions, as a regex alternation
does). -/
def pickEarlier : Option (Nat × Nat) → Option (Nat × Nat) →
    Option (Nat × Nat)
  | some a, some b => if b.1 < a.1 then some b else some a
  | some a, none => some a
  | none, b => b

/-- `text.split(/\s+/)`: pieces between maximal whitespace runs, with
empty edge pieces when the text starts or ends with whitespace. -/
def jsSplitWsGo : List Char → List (List Char) × Nat
  | [] => ([[]], 0)
  | c :: rest =>
    let p := jsSplitWsGo rest
    if isRegexWs c then
      if p.2 = 0 then
        (match p.1 with
         | a :: as => ([] :: a :: as, 1)
         | [] => ([[], []], 1))
      else (p.1, p.2 + 1)
    else
      (match p.1 with
       | a :: as => ((c :: a) :: as, 0)
       | [] => ([[c]], 0))

/-- The pieces of `text.split(/\s+/)`. -/
def jsSplitWs (cs : List Char) : List (List Char) :=
  (jsSplitWsGo cs).1

/-- The no-clear-abstract fallback: first 300 `\s+`-separated words,
joined with single spaces, plus a truncation ellipsis. -/
def fallback300 (cs : List Char) : String :=
  String.intercalate " " (((jsSplitWs cs).take 300).map String.mk) ++ "..."

/-- `text.split(/\n\n+/)`: pieces between runs of two or more newlines
(single newlines stay inside their piece). -/
def splitParasGo : List Char → List (List Char) × Nat
  | [] => ([[]], 0)
  | c :: rest =>
    let p := splitParasGo rest
    if c = '\n' then
      if p.2 = 0 then
        (match p.1 with
         | a :: as => (('\n' :: a) :: as, 1)
         | [] => ([['\n']], 1))
      else if p.2 = 1 then
        (match p.1 with
         | a :: as => ([] :: a.drop 1 :: as, 2)
         | [] => ([[], []], 2))
      else (p.1, p.2 + 1)
    else
      (match p.1 with
       | a :: as => ((c :: a) :: as, 0)
       | [] => ([[c]], 0))

/-- The paragraphs of `text.split(/\n\n+/)`. -/
def splitParas (cs : List Char) : List (List Char) :=
  (splitParasGo cs).1

/-- The methods-keyword test of `extractMethods`'s fallback:
`/study design|participants|patients|samples|statistical analysis|data
collection|procedures|protocol/i.test(p)`. -/
def hasMethodsKeyword (p : List Char) : Bool :=
  let low := toLowerList p
  (findSubIdx "study design".data low).isSome ||
  (findSubIdx "participants".data low).isSome ||
  (findSubIdx "patients".data low).isSome ||
  (findSubIdx "samples".data low).isSome ||
  (findSubIdx "statistical analysis".data low).isSome ||
  (findSubIdx "data collection".data low).isSome ||
  (findSubIdx "procedures".data low).isSome ||
  (findSubIdx "protocol".data low).isSome

/-- The no-clear-methods fallback of `extractMethods`. -/
def methodsFallback (cs : List Char) : String :=
  let methodsParagraphs := (splitParas cs).filter hasMethodsKeyword
  if methodsParagraphs.isEmpty then
    "Methods section not clearly identified. Please include complete methods."
  else
    String.intercalate "\n\n" (methodsParagraphs.map String.mk)

/-- `extractAbstract` from `src/lib/claude/topol-prompts.ts`: the text
between the first case-insensitive `abstract` marker and the earliest
following `introduction`/`background`/`methods` marker, trimmed; else
the first 300 words. -/
def extractAbstract (articleText : String) : String :=
  let cs := articleText.data
  let low := toLowerList cs
  match findSubIdx "abstract".data low with
  | some i =>
    let start := i + 8
    let restLow := low.drop start
    match minOpt (findSubIdx "introduction".data restLow)
        (minOpt (findSubIdx "background".data restLow)
          (findSubIdx "methods".data restLow)) with
    | some j => String.mk (trimChars ((cs.drop start).take j))
    | none => fallback300 cs
  | none => fallback300 cs

/-- `extractMethods` from `src/lib/claude/topol-prompts.ts`: the text
between the earliest case-insensitive
`methods`/`materials and methods`/`methodology` marker and the earliest
following `results`/`discussion`/`conclusion`/`references` marker,
trimmed; else the paragraphs containing methods keywords; else a fixed
notice. -/
def extractMethods (articleText : String) : String :=
  let cs := articleText.data
  let low := toLowerList cs
  match pickEarlier (pickEarlier
      ((findSubIdx "methods".data low).map (fun i => (i, 7)))
      ((findSubIdx "materials and methods".data low).map (fun i => (i, 21))))
      ((findSubIdx "methodology".data low).map (fun i => (i, 11))) with
  | some hit =>
    let start := hit.1 + hit.2
    let restLow := low.drop start
    match minOpt (findSubIdx "results".data restLow)
        (minOpt (findSubIdx "discussion".data restLow)
          (minOpt (findSubIdx "conclusion".data restLow)
            (findSubIdx "references".data restLow))) with
    | some j => String.mk (trimChars ((cs.drop start).take j))
    | none => methodsFallback cs
  | none => methodsFallback cs

/-- `getMedicalReviewerPrompt` from `src/lib/claude/topol-prompts.ts`:
the specialist reviewer instruction, interpolating the specialty (twice),
the editor's guidance, and the abstract and methods excerpts into the
fixed template. -/
def getMedicalReviewerPrompt (specialty abstractText methodsText
    editorGuidance : String) : String :=
  ("You are a **world-renowned expert in " ++ specialty ++
    "** serving as a peer reviewer for a top-tier medical journal.\n\n" ++
    "Your credentials include:\n" ++
    "- 20+ years of clinical and research experience in " ++ specialty ++
    "\n- 150+ publications in high-impact journals\n" ++
    "- Active clinical practice and research program\n" ++
    "- Deep understanding of current methodologies and best practices in the field\n" ++
    "- Track record of rigorous, constructive peer review\n\n" ++
    "EDITOR'S GUIDANCE:\n" ++ editorGuidance) ++
  ("\n\nMANUSCRIPT SECTIONS TO REVIEW:\n\n**ABSTRACT:**\n" ++ abstractText ++
    "\n\n**METHODS:**\n" ++ methodsText ++
    "\n\nYOUR TASK AS PEER REVIEWER:\n\n" ++
    "Conduct a thorough, professional review of the Abstract and Methods sections. Evaluate:\n\n" ++
    "1. **SCIENTIFIC RIGOR**\n" ++
    "   - Are the methods appropriate for the research question?\n" ++
    "   - Is the study design sound?\n" ++
    "   - Are there methodological flaws or limitations?\n" ++
    "   - Is statistical analysis appropriate?\n\n" ++
    "2. **CLARITY & COMPLETENESS**\n" ++
    "   - Is the abstract clear and informative?\n" ++
    "   - Are methods described in sufficient detail for reproducibility?\n" ++
    "   - Are key parameters, reagents, protocols specified?\n" ++
    "   - Are ethical approvals mentioned where required?\n\n" ++
    "3. **INNOVATION & SIGNIFICANCE**\n" ++
    "   - Does this work advance the field?\n" ++
    "   - Is the approach novel or an important application?\n" ++
    "   - What is the potential clinical or research impact?\n\n" ++
    "4. **CRITICAL EVALUATION**\n" ++
    "   - What are the major strengths?\n" ++
    "   - What are the significant weaknesses?\n" ++
    "   - What improvements are needed?\n" ++
    "   - Are there missing controls or validations?\n\n" ++
    "RESPONSE FORMAT (JSON):\n\x7b\n" ++
    "  \"recommendation\": \"Accept\" | \"Minor Revisions\" | \"Major Revisions\" | \"Reject\",\n" ++
    "  \"summary\": \"Brief overall assessment (2-3 sentences)\",\n" ++
    "  \"strengths\": [\n    \"List of major strengths\"\n  ],\n" ++
    "  \"weaknesses\": [\n    \"List of significant weaknesses or concerns\"\n  ],\n" ++
    "  \"methodologicalConcerns\": [\n    \"Specific methodological issues that need addressing\"\n  ],\n" ++
    "  \"questionsForAuthors\": [\n    \"Important questions that must be answered\"\n  ],\n" ++
    "  \"recommendations\": [\n    \"Specific actionable recommendations for improvement\"\n  ],\n" ++
    "  \"confidentialCommentsToEditor\": \"Any concerns to share only with the editor\"\n\x7d\n\n" ++
    "Provide your detailed, professional review now.")

/-- The editor decision parsed by the Topol route: decision, rationale,
the two selected reviewers, and guidance for them. -/
structure TopolEditorDecision where
  decision : EditorDecision
  rationale : String
  reviewers : SelectedReviewer × SelectedReviewer
  guidanceForReviewers : String
deriving DecidableEq, Repr

/-- Environment of a Topol route request: the parsed editor decision and
the input+output token usage the service reports for the n-th dispatched
call. -/
structure TopolEnv where
  editorDecision : TopolEditorDecision
  usage : Nat → Nat

/-- The per-request token ceiling of the Topol route (its API
documentation: 100,000 tokens per request). -/
def TOKEN_LIMIT : Nat := 100000

/-- Modelled from the spec: `checkTokenLimit` (with `getTokenUsage` and
`resetTokenUsage`) is imported by the Topol route from the client module
but is absent from the repository sources.  Per §4.1 the gateway "fails
with QuotaExceeded when the next call would push cumulative token usage
past the configured ceiling (checked before dispatch, not after)" and
"updates process-wide cumulative token counters (input+output) after
every successful call; counters reset at the start of each top-level
review request".  The counter state is passed explicitly here
(per-request scope, as §5/§9 require). -/
def checkTokenLimit (used next : Nat) : Except String Unit :=
  if TOKEN_LIMIT < used + next then .error "Token limit exceeded"
  else .ok ()

/-- Result of a Topol route request: outcome, gateway event trace, final
token count, and the cumulative counter value after each successful
call. -/
structure TopolOutcome where
  result : Except String Unit
  events : List Event
  tokensUsed : Nat
  usedTrace : List Nat

/-- The `Promise.all` fan-out of the two specialist calls: both are
dispatched before either response is awaited; each call's token check
runs before its dispatch (the counter sequentialized per §5's
atomic-increment requirement), and a failed check aborts before that
call is dispatched. -/
def topolParallelReviews (used : Nat) (c1 c2 : GatewayCall)
    (cost1 cost2 : Nat) : Except String Nat × List Event :=
  match checkTokenLimit used cost1 with
  | .error m => (.error m, [])
  | .ok _ =>
    match checkTokenLimit (used + cost1) cost2 with
    | .error m => (.error m, [.dispatch c1])
    | .ok _ =>
      (.ok (used + cost1 + cost2),
       [.dispatch c1, .dispatch c2, .response c1, .response c2])

/-- The POST handler of the Topol route: reset the token counter,
validate the 100-character minimum, extract abstract and methods, run
the editor call, short-circuit on desk reject, else run the two
specialist reviews in parallel via `Promise.all`. -/
def topolRun (env : TopolEnv) (articleText _filename : String) :
    TopolOutcome :=
  if articleText.length < 100 then
    ⟨.error "Article text must be at least 100 characters", [], 0, []⟩
  else
    let abstractText := extractAbstract articleText
    let methodsText := extractMethods articleText
    let cEd : GatewayCall := .topolEditor abstractText methodsText
    match checkTokenLimit 0 (env.usage 0) with
    | .error m => ⟨.error m, [], 0, []⟩
    | .ok _ =>
      let used1 := env.usage 0
      let editorEvents : List Event := [.dispatch cEd, .response cEd]
      let ed := env.editorDecision
      if ed.decision = .deskReject then
        ⟨.ok (), editorEvents, used1, [used1]⟩
      else
        let g := ed.guidanceForReviewers
        let c1 : GatewayCall :=
          .topolReview 0 ed.reviewers.1.specialty abstractText methodsText g
        let c2 : GatewayCall :=
          .topolReview 1 ed.reviewers.2.specialty abstractText methodsText g
        let rev := topolParallelReviews used1 c1 c2 (env.usage 1)
          (env.usage 2)
        match rev.1 with
        | .error m => ⟨.error m, editorEvents ++ rev.2, used1, [used1]⟩
        | .ok used3 =>
          ⟨.ok (), editorEvents ++ rev.2, used3,
           [used1, used1 + env.usage 1, used3]⟩

/-- An environment that stops after round 1: both reviewers are
positive while the synthesis says Continue. -/
def earlyStopEnv : Env :=
  { assessment := sampleAssessment .acceptForReview
    review := fun _ _ => sampleReview .accept
    synthesis := fun i => { iterationNumber := i, decision := .sContinue } }

/-- Witness for `orchestrate_stop_conditions`: both reviewers positive
after round 1, so every call and iteration stays in round 1. -/
theorem orchestrate_stop_conditions_witness :
    (1 < maxIterations ∧ stopConditionsMet earlyStopEnv 1) ∧
    ((∀ e ∈ (orchestrateReview earlyStopEnv longManuscript "draft.pdf"
        "Nature" 0).2, eventRound e ≤ 1) ∧
     (∀ report : ReviewReport,
       (orchestrateReview earlyStopEnv longManuscript "draft.pdf"
         "Nature" 0).1 = .ok report →
       ∀ it ∈ report.iterations, it.iterationNumber ≤ 1)) :=
  ⟨⟨by decide, by decide⟩,
   orchestrate_stop_conditions earlyStopEnv longManuscript "draft.pdf"
     "Nature" 0 1 rfl (by decide) (le_refl 1) (by decide) (by decide)⟩

/-- Number of dispatch events in a trace. -/
def dispatchCount (events : List Event) : Nat :=
  (events.filter (fun e =>
    match e with
    | .dispatch _ => true
    | .response _ => false)).length

/-- The cumulative token spend of a run, as an external observer sums
it: the reported usage of every dispatched call. -/
def runTokenSpend (usage : Nat → Nat) (events : List Event) : Nat :=
  ((List.range (dispatchCount events)).map usage).sum

/-- C1 (amended, Topol workflow; the token-accounting helpers are
modelled from the spec, see `checkTokenLimit`): over a Topol run the
cumulative token counter starts at 0 and is monotonically
non-decreasing, never exceeds `TOKEN_LIMIT`, and each call's limit check
runs before its dispatch — in particular, when already the first call
would push usage past the ceiling, the run fails with the token-limit
error and dispatches nothing. -/
theorem topol_token_accounting (env : TopolEnv) (text filename : String)
    (hlen : 100 ≤ text.length) :
    List.Chain' (· ≤ ·) (0 :: (topolRun env text filename).usedTrace) ∧
    (∀ u ∈ (topolRun env text filename).usedTrace, u ≤ TOKEN_LIMIT) ∧
    (topolRun env text filename).tokensUsed ≤ TOKEN_LIMIT ∧
    (TOKEN_LIMIT < env.usage 0 →
      (topolRun env text filename).result = .error "Token limit exceeded" ∧
      (topolRun env text filename).events = []) := by
  have hnotshort : ¬ text.length < 100 := by omega
  by_cases h0 : TOKEN_LIMIT < env.usage 0
  · have hrun : topolRun env text filename =
        ⟨.error "Token limit exceeded", [], 0, []⟩ := by
      simp [topolRun, hnotshort, checkTokenLimit, h0]
    rw [hrun]
    refine ⟨by simp, by simp, by simp [TOKEN_LIMIT], fun _ => ⟨rfl, rfl⟩⟩
  · have h0' : env.usage 0 ≤ TOKEN_LIMIT := by omega
    by_cases hd : env.editorDecision.decision = .deskReject
    · have hrun : topolRun env text filename =
          ⟨.ok (), [.dispatch (.topolEditor (extractAbstract text)
              (extractMethods text)),
            .response (.topolEditor (extractAbstract text)
              (extractMethods text))], env.usage 0, [env.usage 0]⟩ := by
        simp [topolRun, hnotshort, checkTokenLimit, h0, hd]
      rw [hrun]
      refine ⟨?_, ?_, h0', fun hc => absurd hc (by omega)⟩
      · simp [List.chain'_cons]
      · intro u hu
        simp at hu
        omega
    · by_cases h1 : TOKEN_LIMIT < env.usage 0 + env.usage 1
      · have hrun : topolRun env text filename =
            ⟨.error "Token limit exceeded",
             [.dispatch (.topolEditor (extractAbstract text)
                (extractMethods text)),
              .response (.topolEditor (extractAbstract text)
                (extractMethods text))], env.usage 0, [env.usage 0]⟩ := by
          simp [topolRun, hnotshort, checkTokenLimit, h0, hd,
            topolParallelReviews, h1]
        rw [hrun]
        refine ⟨by simp, ?_, h0', fun hc => absurd hc (by omega)⟩
        intro u hu
        simp at hu
        omega
      · by_cases h2 : TOKEN_LIMIT < env.usage 0 + env.usage 1 + env.usage 2
        · have hrun : topolRun env text filename =
              ⟨.error "Token limit exceeded",
               [.dispatch (.topolEditor (extractAbstract text)
                  (extractMethods text)),
                .response (.topolEditor (extractAbstract text)
                  (extractMethods text)),
                .dispatch (.topolReview 0
                  env.editorDecision.reviewers.1.specialty
                  (extractAbstract text) (extractMethods text)
                  env.editorDecision.guidanceForReviewers)],
               env.usage 0, [env.usage 0]⟩ := by
            simp [topolRun, hnotshort, checkTokenLimit, h0, hd,
              topolParallelReviews, h1, h2]
          rw [hrun]
          refine ⟨by simp, ?_, h0', fun hc => absurd hc (by omega)⟩
          intro u hu
          simp at hu
          omega
        · have hrun : (topolRun env text filename).usedTrace =
              [env.usage 0, env.usage 0 + env.usage 1,
               env.usage 0 + env.usage 1 + env.usage 2] ∧
              (topolRun env text filename).tokensUsed =
                env.usage 0 + env.usage 1 + env.usage 2 := by
            constructor <;>
              simp [topolRun, hnotshort, checkTokenLimit, h0, hd,
                topolParallelReviews, h1, h2]
          refine ⟨?_, ?_, ?_, fun hc => absurd hc (by omega)⟩
          · rw [hrun.1]
            simp [List.chain'_cons]
          · rw [hrun.1]
            intro u hu
            simp at hu
            rcases hu with rfl | rfl | rfl <;> omega
          · rw [hrun.2]
            omega

/-- A sample Topol route environment: accepted for review, 20,000
tokens per call. -/
def topolSampleEnv : TopolEnv :=
  { editorDecision :=
      { decision := .acceptForReview
        rationale := "sound methods"
        reviewers :=
          ({ specialty := "Cardiology & Cardiovascular Research",
             rationale := "fit" },
           { specialty := "Medical AI & Digital Health", rationale := "fit" })
        guidanceForReviewers := "check the statistics" }
    usage := fun _ => 20000 }

/-- Witness for `topol_token_accounting` at `topolSampleEnv`. -/
theorem topol_token_accounting_witness :
    100 ≤ longManuscript.length ∧
    (List.Chain' (· ≤ ·)
      (0 :: (topolRun topolSampleEnv longManuscript "draft.txt").usedTrace) ∧
    (∀ u ∈ (topolRun topolSampleEnv longManuscript "draft.txt").usedTrace,
      u ≤ TOKEN_LIMIT) ∧
    (topolRun topolSampleEnv longManuscript "draft.txt").tokensUsed ≤
      TOKEN_LIMIT ∧
    (TOKEN_LIMIT < topolSampleEnv.usage 0 →
      (topolRun topolSampleEnv longManuscript "draft.txt").result =
        .error "Token limit exceeded" ∧
      (topolRun topolSampleEnv longManuscript "draft.txt").events = [])) :=
  ⟨by decide,
   topol_token_accounting topolSampleEnv longManuscript "draft.txt"
     (by decide)⟩

/-- C1 (counterexample): the main workflow's gateway
(`src/lib/claude/client.ts` `callClaude`) keeps no token counter and
performs no ceiling check: a one-round run whose four dispatched calls
each report 30,000 tokens spends 120,000 tokens — past the 100,000
ceiling — yet every call is dispatched and the run completes without
any quota error. -/
theorem main_gateway_exceeds_ceiling_counterexample :
    dispatchCount (orchestrateReview earlyStopEnv longManuscript
      "draft.pdf" "Nature" 0).2 = 4 ∧
    runTokenSpend (fun _ => 30000) (orchestrateReview earlyStopEnv
      longManuscript "draft.pdf" "Nature" 0).2 = 120000 ∧
    TOKEN_LIMIT < 120000 ∧
    ∃ report : ReviewReport,
      (orchestrateReview earlyStopEnv longManuscript "draft.pdf"
        "Nature" 0).1 = .ok report :=
  ⟨rfl, rfl, by decide, ⟨_, rfl⟩⟩

/-- Is this a specialist review call of the main workflow? -/
def isReviewCall : GatewayCall → Bool
  | .review _ _ _ _ => true
  | _ => false

/-- The claimed fan-out property for round `k`: every round-`k` review
dispatch precedes every round-`k` review response in the trace. -/
def fanOutAt (events : List Event) (k : Nat) : Prop :=
  ∀ (i j : Nat) (c c' : GatewayCall),
    events.get? i = some (.dispatch c) → isReviewCall c = true →
    callRound c = k →
    events.get? j = some (.response c') → isReviewCall c' = true →
    callRound c' = k →
    i < j

/-- C5 (counterexample): in the main orchestrator the two specialist
calls of a round are awaited sequentially — reviewer 2 is dispatched
only after reviewer 1's response arrives — so the claimed fan-out
property fails on a concrete run (the round-1 reviewer-2 dispatch sits
at index 4, after the reviewer-1 response at index 3). -/
theorem orchestrate_sequential_reviews_counterexample :
    ¬ fanOutAt (orchestrateReview sampleEnv longManuscript "draft.pdf"
      "Nature" 0).2 1 := by
  intro h
  have h43 := h 4 3
    (.review 1 1 "Cardiology & Cardiovascular Research"
      (truncateArticle longManuscript))
    (.review 1 0 "Oncology" (truncateArticle longManuscript))
    rfl rfl rfl rfl rfl rfl
  omega

/-- The first four events of any entered round are: dispatch reviewer 1,
await its response, then dispatch reviewer 2 and await its response. -/
theorem runLoop_first_round_events (env : Env) (text : String)
    (n i : Nat) :
    (runLoop env text (n + 1) i).2.take 4 =
      [.dispatch (.review i 0 env.assessment.selectedReviewers.1.specialty
         (truncateArticle text)),
       .response (.review i 0 env.assessment.selectedReviewers.1.specialty
         (truncateArticle text)),
       .dispatch (.review i 1 env.assessment.selectedReviewers.2.specialty
         (truncateArticle text)),
       .response (.review i 1 env.assessment.selectedReviewers.2.specialty
         (truncateArticle text))] := by
  by_cases h1 : i < maxIterations
  · by_cases h2 : (env.synthesis i).decision = .sAccept ∨
        (env.synthesis i).decision = .sReject
    · simp [runLoop, h1, h2]
    · by_cases h3 : isPositive (env.review i 0).recommendation = true ∧
          isPositive (env.review i 1).recommendation = true
      · simp [runLoop, h1, h2, h3]
      · simp [runLoop, h1, h2, h3]
  · simp [runLoop, h1]

/-- C5 (amended): only the Topol route dispatches the two specialist
calls concurrently — `Promise.all` issues both dispatches before either
response is joined, with byte-identical abstract, methods and guidance
inputs — while the main orchestrator awaits the two reviewer calls
sequentially: reviewer 2 is dispatched only after reviewer 1's response
(trace order editor, reviewer-1 dispatch/response, reviewer-2
dispatch/response). -/
theorem review_dispatch_ordering (env : TopolEnv) (menv : Env)
    (text filename journal : String) (now : Nat)
    (hlen : 100 ≤ text.length)
    (hdesk : env.editorDecision.decision ≠ .deskReject)
    (hbudget : env.usage 0 + env.usage 1 + env.usage 2 ≤ TOKEN_LIMIT)
    (hkey : menv.apiKeyPresent = true)
    (hmdesk : menv.assessment.decision ≠ .deskReject) :
    (topolRun env text filename).events =
      [.dispatch (.topolEditor (extractAbstract text)
         (extractMethods text)),
       .response (.topolEditor (extractAbstract text)
         (extractMethods text)),
       .dispatch (.topolReview 0 env.editorDecision.reviewers.1.specialty
         (extractAbstract text) (extractMethods text)
         env.editorDecision.guidanceForReviewers),
       .dispatch (.topolReview 1 env.editorDecision.reviewers.2.specialty
         (extractAbstract text) (extractMethods text)
         env.editorDecision.guidanceForReviewers),
       .response (.topolReview 0 env.editorDecision.reviewers.1.specialty
         (extractAbstract text) (extractMethods text)
         env.editorDecision.guidanceForReviewers),
       .response (.topolReview 1 env.editorDecision.reviewers.2.specialty
         (extractAbstract text) (extractMethods text)
         env.editorDecision.guidanceForReviewers)] ∧
    (orchestrateReview menv text filename journal now).2.take 6 =
      [.dispatch (.editor (truncateArticle text) journal
         (menv.journalScope ++ "\n\n" ++ menv.journalCriteria)),
       .response (.editor (truncateArticle text) journal
         (menv.journalScope ++ "\n\n" ++ menv.journalCriteria)),
       .dispatch (.review 1 0 menv.assessment.selectedReviewers.1.specialty
         (truncateArticle text)),
       .response (.review 1 0 menv.assessment.selectedReviewers.1.specialty
         (truncateArticle text)),
       .dispatch (.review 1 1 menv.assessment.selectedReviewers.2.specialty
         (truncateArticle text)),
       .response (.review 1 1 menv.assessment.selectedReviewers.2.specialty
         (truncateArticle text))] := by
  have hnotshort : ¬ text.length < 100 := by omega
  constructor
  · have h0 : ¬ TOKEN_LIMIT < env.usage 0 := by omega
    have h1 : ¬ TOKEN_LIMIT < env.usage 0 + env.usage 1 := by omega
    have h2 : ¬ TOKEN_LIMIT < env.usage 0 + env.usage 1 + env.usage 2 := by
      omega
    simp [topolRun, hnotshort, checkTokenLimit, h0, hdesk,
      topolParallelReviews, h1, h2]
  · have hpath := orchestrate_accept_path menv text filename journal now
      hkey hlen hmdesk
    have h2 := congrArg Prod.snd hpath
    dsimp only at h2
    rw [h2]
    simp only [List.cons_append, List.nil_append, List.take_succ_cons]
    rw [show maxIterations = 2 + 1 from rfl,
      runLoop_first_round_events menv text 2 1]

/-- Witness for `review_dispatch_ordering` at the sample environments. -/
theorem review_dispatch_ordering_witness :
    100 ≤ longManuscript.length ∧
    ((topolRun topolSampleEnv longManuscript "draft.pdf").events =
      [.dispatch (.topolEditor (extractAbstract longManuscript)
         (extractMethods longManuscript)),
       .response (.topolEditor (extractAbstract longManuscript)
         (extractMethods longManuscript)),
       .dispatch (.topolReview 0
         topolSampleEnv.editorDecision.reviewers.1.specialty
         (extractAbstract longManuscript) (extractMethods longManuscript)
         topolSampleEnv.editorDecision.guidanceForReviewers),
       .dispatch (.topolReview 1
         topolSampleEnv.editorDecision.reviewers.2.specialty
         (extractAbstract longManuscript) (extractMethods longManuscript)
         topolSampleEnv.editorDecision.guidanceForReviewers),
       .response (.topolReview 0
         topolSampleEnv.editorDecision.reviewers.1.specialty
         (extractAbstract longManuscript) (extractMethods longManuscript)
         topolSampleEnv.editorDecision.guidanceForReviewers),
       .response (.topolReview 1
         topolSampleEnv.editorDecision.reviewers.2.specialty
         (extractAbstract longManuscript) (extractMethods longManuscript)
         topolSampleEnv.editorDecision.guidanceForReviewers)] ∧
    (orchestrateReview sampleEnv longManuscript "draft.pdf" "Nature"
      0).2.take 6 =
      [.dispatch (.editor (truncateArticle longManuscript) "Nature"
         (sampleEnv.journalScope ++ "\n\n" ++ sampleEnv.journalCriteria)),
       .response (.editor (truncateArticle longManuscript) "Nature"
         (sampleEnv.journalScope ++ "\n\n" ++ sampleEnv.journalCriteria)),
       .dispatch (.review 1 0
         sampleEnv.assessment.selectedReviewers.1.specialty
         (truncateArticle longManuscript)),
       .response (.review 1 0
         sampleEnv.assessment.selectedReviewers.1.specialty
         (truncateArticle longManuscript)),
       .dispatch (.review 1 1
         sampleEnv.assessment.selectedReviewers.2.specialty
         (truncateArticle longManuscript)),
       .response (.review 1 1
         sampleEnv.assessment.selectedReviewers.2.specialty
         (truncateArticle longManuscript))]) :=
  ⟨by decide,
   review_dispatch_ordering topolSampleEnv sampleEnv longManuscript
     "draft.pdf" "Nature" 0 (by decide) (by decide) (by decide) rfl
     (by decide)⟩

/-- What a main-workflow review call is built from: the excerpt is the
truncated article, and the specialty is the one selected for that
reviewer slot by the classification. -/
def reviewCallOk (env : Env) (text : String) : GatewayCall → Prop
  | .review _ idx sp ex =>
      ex = truncateArticle text ∧
      (idx = 0 → sp = env.assessment.selectedReviewers.1.specialty) ∧
      (idx = 1 → sp = env.assessment.selectedReviewers.2.specialty)
  | _ => True

/-- `reviewCallOk` lifted to events. -/
def eventCallOk (env : Env) (text : String) : Event → Prop
  | .dispatch c => reviewCallOk env text c
  | .response c => reviewCallOk env text c

/-- Every review call the loop issues is built from the truncated
article and the fixed per-slot specialty. -/
theorem runLoop_review_call_inputs (env : Env) (text : String) :
    ∀ remaining i, ∀ e ∈ (runLoop env text remaining i).2,
      eventCallOk env text e := by
  intro remaining
  induction remaining with
  | zero => intro i e he; simp [runLoop] at he
  | succ n ih =>
    intro i e he
    by_cases h1 : i < maxIterations
    · by_cases h2 : (env.synthesis i).decision = .sAccept ∨
          (env.synthesis i).decision = .sReject
      · simp only [runLoop, if_pos h1, if_pos h2, List.cons_append,
          List.nil_append, List.mem_cons, List.not_mem_nil, or_false] at he
        rcases he with rfl | rfl | rfl | rfl | rfl | rfl <;>
          simp [eventCallOk, reviewCallOk]
      · by_cases h3 : isPositive (env.review i 0).recommendation = true ∧
            isPositive (env.review i 1).recommendation = true
        · simp only [runLoop, if_pos h1, if_neg h2, if_pos h3,
            List.cons_append, List.nil_append, List.mem_cons,
            List.not_mem_nil, or_false] at he
          rcases he with rfl | rfl | rfl | rfl | rfl | rfl <;>
            simp [eventCallOk, reviewCallOk]
        · simp only [runLoop, if_pos h1, if_neg h2, if_neg h3,
            List.cons_append, List.nil_append, List.mem_cons,
            List.mem_append] at he
          rcases he with rfl | rfl | rfl | rfl | rfl | rfl | hmem
          · simp [eventCallOk, reviewCallOk]
          · simp [eventCallOk, reviewCallOk]
          · simp [eventCallOk, reviewCallOk]
          · simp [eventCallOk, reviewCallOk]
          · simp [eventCallOk, reviewCallOk]
          · simp [eventCallOk, reviewCallOk]
          · exact ih (i + 1) e hmem
    · simp only [runLoop, if_neg h1, List.mem_cons, List.not_mem_nil,
        or_false] at he
      rcases he with rfl | rfl | rfl | rfl <;>
        simp [eventCallOk, reviewCallOk]

/-- The gateway trace of an accepted run is the editor call followed by
the loop's calls. -/
theorem orchestrate_events (env : Env)
    (text filename journal : String) (now : Nat)
    (hkey : env.apiKeyPresent = true) (hlen : 100 ≤ text.length)
    (hdesk : env.assessment.decision ≠ .deskReject) :
    (orchestrateReview env text filename journal now).2 =
      [.dispatch (.editor (truncateArticle text) journal
         (env.journalScope ++ "\n\n" ++ env.journalCriteria)),
       .response (.editor (truncateArticle text) journal
         (env.journalScope ++ "\n\n" ++ env.journalCriteria))] ++
        (runLoop env text maxIterations 1).2 := by
  have hpath := orchestrate_accept_path env text filename journal now
    hkey hlen hdesk
  have h2 := congrArg Prod.snd hpath
  dsimp only at h2
  exact h2

/-- The loop's gateway events do not depend on the editorial guidance:
changing `editorialGuidance` in the assessment leaves every review and
synthesis call unchanged. -/
theorem runLoop_events_guidance_invariant (env : Env) (g : String)
    (text : String) :
    ∀ remaining i,
      (runLoop { env with assessment :=
        { env.assessment with editorialGuidance := g } } text
          remaining i).2 =
      (runLoop env text remaining i).2 := by
  intro remaining
  induction remaining with
  | zero => intro i; rfl
  | succ n ih =>
    intro i
    by_cases h1 : i < maxIterations
    · by_cases h2 : (env.synthesis i).decision = .sAccept ∨
          (env.synthesis i).decision = .sReject
      · simp [runLoop, h1, h2]
      · by_cases h3 : isPositive (env.review i 0).recommendation = true ∧
            isPositive (env.review i 1).recommendation = true
        · simp [runLoop, h1, h2, h3]
        · simp [runLoop, h1, h2, h3, ih]
    · simp [runLoop, h1]

/-- C8 (amended): in the main workflow each specialist prompt is built
from the reviewer's specialty and the truncated manuscript excerpt only
— the gateway trace is invariant under changing the classification's
editorial guidance, and both reviewers of every round receive the
byte-identical excerpt `truncateArticle text` — while in the Topol
workflow the specialist prompt does embed the editor's guidance
(together with the abstract and methods excerpts shared byte-identically
by both reviewers). -/
theorem reviewer_prompt_construction :
    (∀ (env : Env) (g text filename journal : String) (now : Nat),
      env.apiKeyPresent = true → 100 ≤ text.length →
      env.assessment.decision ≠ .deskReject →
      (orchestrateReview { env with assessment :=
        { env.assessment with editorialGuidance := g } } text filename
          journal now).2 =
      (orchestrateReview env text filename journal now).2) ∧
    (∀ (env : Env) (text filename journal : String) (now : Nat),
      env.apiKeyPresent = true → 100 ≤ text.length →
      env.assessment.decision ≠ .deskReject →
      ∀ e ∈ (orchestrateReview env text filename journal now).2,
        eventCallOk env text e) ∧
    (∀ specialty abstractText methodsText guidance : String,
      ∃ l r : String,
        getMedicalReviewerPrompt specialty abstractText methodsText
          guidance = (l ++ guidance) ++ r) := by
  refine ⟨?_, ?_, ?_⟩
  · intro env g text filename journal now hkey hlen hdesk
    rw [orchestrate_events { env with assessment :=
        { env.assessment with editorialGuidance := g } } text filename
        journal now hkey hlen hdesk,
      orchestrate_events env text filename journal now hkey hlen hdesk,
      runLoop_events_guidance_invariant]
  · intro env text filename journal now hkey hlen hdesk e he
    rw [orchestrate_events env text filename journal now hkey hlen hdesk]
      at he
    rcases List.mem_append.mp he with he | he
    · simp only [List.mem_cons, List.not_mem_nil, or_false] at he
      rcases he with rfl | rfl <;> simp [eventCallOk, reviewCallOk]
    · exact runLoop_review_call_inputs env text maxIterations 1 e he
  · intro specialty abstractText methodsText guidance
    exact ⟨_, _, rfl⟩

/-- C8 (counterexample): the claim that each specialist prompt is built
from the editorial guidance fails on the main workflow: two runs whose
classification results differ only in `editorialGuidance` produce
byte-identical gateway traffic — including the round-1 reviewer call,
which records only a specialty and the manuscript excerpt. -/
theorem reviewer_prompt_ignores_guidance_counterexample :
    sampleEnv.assessment.editorialGuidance ≠ "ALTERNATE GUIDANCE XYZZY" ∧
    (orchestrateReview { sampleEnv with assessment :=
      { sampleEnv.assessment with
        editorialGuidance := "ALTERNATE GUIDANCE XYZZY" } } longManuscript
        "draft.pdf" "Nature" 0).2 =
      (orchestrateReview sampleEnv longManuscript "draft.pdf" "Nature"
        0).2 ∧
    (orchestrateReview sampleEnv longManuscript "draft.pdf" "Nature"
      0).2.get? 2 =
      some (.dispatch (.review 1 0 "Oncology"
        (truncateArticle longManuscript))) :=
  ⟨by decide, rfl, rfl⟩

/-- Witness for `reviewer_prompt_construction` at the sample
environment and concrete prompt inputs. -/
theorem reviewer_prompt_construction_witness :
    (orchestrateReview { sampleEnv with assessment :=
      { sampleEnv.assessment with editorialGuidance := "G2" } }
        longManuscript "draft.pdf" "Nature" 0).2 =
      (orchestrateReview sampleEnv longManuscript "draft.pdf" "Nature"
        0).2 ∧
    eventCallOk sampleEnv longManuscript
      (.dispatch (.review 1 0 "Oncology"
        (truncateArticle longManuscript))) ∧
    (∃ l r : String,
      getMedicalReviewerPrompt "Oncology" "The abstract." "The methods."
        "Focus on statistics." = (l ++ "Focus on statistics.") ++ r) :=
  ⟨reviewer_prompt_construction.1 sampleEnv "G2" longManuscript
     "draft.pdf" "Nature" 0 rfl (by decide) (by decide),
   reviewer_prompt_construction.2.1 sampleEnv longManuscript "draft.pdf"
     "Nature" 0 rfl (by decide) (by decide)
     (.dispatch (.review 1 0 "Oncology" (truncateArticle longManuscript)))
     (by decide),
   reviewer_prompt_construction.2.2 "Oncology" "The abstract."
     "The methods." "Focus on statistics."⟩
